import Mathlib

/-!
# Verification of the blob storage subsystem (BlobFileBuilder / BlobSource)

Shallow embedding of `db/blob/blob_file_builder.cc` and of the read-side
components it interacts with.  The builder is translated directly from the
source; the read-side components (`BlobSource`, `BlobFileReader`, the cache-key
derivation and the compression codec) are not part of the source tree, so they
are modelled from the specification (each such definition carries a
`Modelled from the spec:` doc comment).

Machine integers (`uint64_t`) are modelled as unbounded naturals; none of the
properties below concern 64-bit wraparound.
-/

namespace RocksDB

/-- Status codes, mirroring `rocksdb::Status` as used by the blob subsystem
(messages carried by the C++ statuses are dropped; only the code matters). -/
inductive Status where
  | ok
  | ioError
  | corruption
  | incomplete
  | busy
deriving DecidableEq, Repr

/-- `rocksdb::CompressionType` restricted to the values the spec enumerates. -/
inductive CompressionType where
  | kNoCompression
  | kSnappyCompression
  | kZSTD
  | kLZ4Compression
deriving DecidableEq, Repr

/-- `PrepopulateBlobCache` policy from the mutable column-family options. -/
inductive PrepopulateBlobCache where
  | kPrepopulateBlobDisable
  | kPrepopulateBlobFlushOnly
deriving DecidableEq, Repr

/-- `BlobFileCreationReason`. -/
inductive BlobFileCreationReason where
  | kFlush
  | kCompaction
deriving DecidableEq, Repr

/-- Modelled from the spec: fixed-size blob log header
(`BlobLogHeader::kSize`; exact width follows the reference implementation,
only fixedness matters). -/
def BlobLogHeader.kSize : Nat := 30

/-- Modelled from the spec: fixed-size blob record header
(`BlobLogRecord::kHeaderSize`). -/
def BlobLogRecord.kHeaderSize : Nat := 32

/-- One record of a blob file as it sits on disk: the key bytes, the value
bytes actually written, and the offset of the value bytes within the file
(as returned by `BlobLogWriter::AddRecord`). -/
structure BlobRecord where
  keyBytes : List Nat
  valueBytes : List Nat
  blobOffset : Nat
deriving DecidableEq, Repr

/-- A footer-terminated blob file on disk, identified by its file number. -/
structure SealedFile where
  fileNumber : Nat
  records : List BlobRecord
deriving DecidableEq, Repr

/-- `BlobFileAddition`: the metadata record published to the engine when a
blob file is closed successfully. -/
structure BlobFileAddition where
  blobFileNumber : Nat
  totalBlobCount : Nat
  totalBlobBytes : Nat
  checksumMethod : Nat
  checksumValue : Nat
deriving DecidableEq, Repr

/-- Modelled from the spec: the cache key is a deterministic fingerprint of
(db_id, db_session_id, file_number, file_size, offset) with no collisions
across distinct inputs within a session (`cache_key.cc` is not in the source
tree); the fingerprint is modelled by the tuple itself. -/
structure CacheKey where
  dbId : String
  dbSessionId : String
  fileNumber : Nat
  fileSize : Nat
  offset : Nat
deriving DecidableEq, Repr

/-- Modelled from the spec: `OffsetableCacheKey` is the `(base, offset)` pair
before the offset is mixed in. -/
structure OffsetableCacheKey where
  dbId : String
  dbSessionId : String
  fileNumber : Nat
  fileSize : Nat
deriving DecidableEq, Repr

/-- Modelled from the spec: mixing the offset into an offsetable cache key
(`OffsetableCacheKey::WithOffset`). -/
def OffsetableCacheKey.WithOffset (k : OffsetableCacheKey) (offset : Nat) : CacheKey :=
  ⟨k.dbId, k.dbSessionId, k.fileNumber, k.fileSize, offset⟩

/-- `std::numeric_limits<uint64_t>::max()`, the file-size sentinel used by
builder-time cache warm-up. -/
def u64Max : Nat := 2 ^ 64 - 1

/-- The blob cache, modelled as an association list from cache keys to the
cached (owned) blob bytes; insertion prepends. -/
def BlobCache := List (CacheKey × List Nat)

instance : DecidableEq BlobCache := by unfold BlobCache; infer_instance

instance : Repr BlobCache := by unfold BlobCache; infer_instance

/-- Cache lookup: first entry whose key matches. -/
def cacheLookup (cache : BlobCache) (k : CacheKey) : Option (List Nat) :=
  match cache with
  | [] => none
  | e :: rest => if e.1 = k then some e.2 else cacheLookup rest k

/-- Cache insertion (the model cache is unbounded, so insertion succeeds;
capacity failures are injected separately where the builder needs them). -/
def cacheInsert (cache : BlobCache) (k : CacheKey) (v : List Nat) : BlobCache :=
  (k, v) :: cache

/-- A tag byte distinguishing each compressed format in the codec model. -/
def compressionTag : CompressionType → Nat
  | .kNoCompression => 0
  | .kSnappyCompression => 201
  | .kZSTD => 202
  | .kLZ4Compression => 203

/-- Modelled from the spec: the external compression codec
(`CompressData` of `util/compression.h`, not in the source tree).  The model
codec is invertible and tags its output so compressed bytes are
distinguishable from raw bytes. -/
def CompressData (t : CompressionType) (b : List Nat) : List Nat :=
  match t with
  | .kNoCompression => b
  | t => compressionTag t :: b.length :: b

/-- Modelled from the spec: the external decompression codec
(`UncompressData`); fails (returns `none`, surfaced as corruption) on input
that is not well-formed output of `CompressData`. -/
def UncompressData (t : CompressionType) (b : List Nat) : Option (List Nat) :=
  match t with
  | .kNoCompression => some b
  | t =>
    match b with
    | tag :: len :: rest =>
      if tag = compressionTag t ∧ rest.length = len then some rest else none
    | _ => none

theorem uncompress_compress (t : CompressionType) (b : List Nat) :
    UncompressData t (CompressData t b) = some b := by
  cases t <;> simp [UncompressData, CompressData]

/-- `BlobFileName`: `<cf_path>/<file_number>.blob` (zero padding of the
decimal number is immaterial to every property below). -/
def BlobFileName (dirPath : String) (number : Nat) : String :=
  dirPath ++ "/" ++ toString number ++ ".blob"

/-- The constructor inputs of `BlobFileBuilder` that the embedded operations
consult (immutable and mutable options, identity, callback presence). -/
structure BuilderConfig where
  minBlobSize : Nat
  blobFileSize : Nat
  blobCompressionType : CompressionType
  prepopulateBlobCache : PrepopulateBlobCache
  hasBlobCache : Bool
  hasBlobCallback : Bool
  creationReason : BlobFileCreationReason
  cfPath : String
  dbId : String
  dbSessionId : String
deriving DecidableEq, Repr

/-- Outcomes of the external collaborators (filesystem, log writer, codec,
completion callback, cache) during one builder operation.  Each field decides
whether the corresponding fallible call succeeds, mirroring the status checks
in the source. -/
structure StepEnv where
  newFileOk : Bool
  writeHeaderOk : Bool
  compressOk : Bool
  addRecordOk : Bool
  appendFooterOk : Bool
  checksumMethod : Nat
  checksumValue : Nat
  callbackStatus : Status
  cacheInsertOk : Bool
deriving DecidableEq, Repr

/-- An all-success environment (callback returns OK). -/
def StepEnv.allOk : StepEnv :=
  ⟨true, true, true, true, true, 1, 2, Status.ok, true⟩

/-- Ghost trace events recording when a file is created (its path pushed onto
the paths collector), when a record is appended, and when a footer is
written successfully. -/
inductive BuilderEvent where
  | fileCreated (fileNumber : Nat) (path : String)
  | recordWritten (fileNumber : Nat)
  | footerWritten (fileNumber : Nat)
deriving DecidableEq, Repr

/-- The writer portion of the builder state (`writer_` when open): the log
number passed to `BlobLogWriter`, the number of bytes written so far
(`file()->GetFileSize()`), and the records appended so far. -/
structure WriterState where
  logNumber : Nat
  fileSize : Nat
  records : List BlobRecord
deriving DecidableEq, Repr

/-- The full mutable state touched by the builder: its own fields
(`writer_`, `blob_count_`, `blob_bytes_`), the two output collectors
(`blob_file_paths_`, `blob_file_additions_`), the file-number generator
state, the footer-terminated files on disk, the blob cache, and the ghost
event trace. -/
structure BuilderState where
  writer : Option WriterState
  blobCount : Nat
  blobBytes : Nat
  paths : List String
  additions : List BlobFileAddition
  nextFileNumber : Nat
  sealedFiles : List SealedFile
  blobCache : BlobCache
  events : List BuilderEvent
deriving DecidableEq, Repr

/-- The builder state right after construction: no writer, zero counters,
empty collectors (the constructor asserts both collectors empty). -/
def BuilderState.init (firstFileNumber : Nat) : BuilderState :=
  ⟨none, 0, 0, [], [], firstFileNumber, [], [], []⟩

/-- `BlobFileBuilder::IsBlobFileOpen`. -/
def BlobFileBuilder.IsBlobFileOpen (st : BuilderState) : Bool :=
  st.writer.isSome

/-- `BlobFileBuilder::OpenBlobFileIfNeeded`: if no file is open, draw a file
number, create the file (pushing its path onto the paths collector right
after the create, before anything is written), and write the header; the
writer is installed only after a successful header write.  The
creation-started callback has no observable effect on this state. -/
def BlobFileBuilder.OpenBlobFileIfNeeded (cfg : BuilderConfig) (env : StepEnv)
    (st : BuilderState) : Status × BuilderState :=
  match st.writer with
  | some _ => (Status.ok, st)
  | none =>
    let blobFileNumber := st.nextFileNumber
    let blobFilePath := BlobFileName cfg.cfPath blobFileNumber
    let st1 := { st with nextFileNumber := st.nextFileNumber + 1 }
    if env.newFileOk = false then
      (Status.ioError, st1)
    else
      let st2 := { st1 with
        paths := st1.paths ++ [blobFilePath],
        events := st1.events ++ [BuilderEvent.fileCreated blobFileNumber blobFilePath] }
      if env.writeHeaderOk = false then
        (Status.ioError, st2)
      else
        (Status.ok, { st2 with writer := some ⟨blobFileNumber, BlobLogHeader.kSize, []⟩ })

/-- `BlobFileBuilder::CompressBlobIfNeeded`: with compression disabled the
output slice stays empty; otherwise the codec runs and a codec failure is
reported as corruption.  (As in the source, the caller ignores the returned
compressed blob.) -/
def BlobFileBuilder.CompressBlobIfNeeded (cfg : BuilderConfig) (env : StepEnv)
    (blob : List Nat) : Status × List Nat :=
  if cfg.blobCompressionType = CompressionType.kNoCompression then
    (Status.ok, [])
  else if env.compressOk then
    (Status.ok, CompressData cfg.blobCompressionType blob)
  else
    (Status.corruption, [])

/-- Result of `BlobFileBuilder::WriteBlobToFile`. -/
structure WriteResult where
  status : Status
  blobFileNumber : Nat
  blobOffset : Nat
  state : BuilderState
deriving DecidableEq, Repr

/-- `BlobFileBuilder::WriteBlobToFile`: append one record through the log
writer and, on success, bump the running counters.  The record occupies
`kHeaderSize + |key| + |blob|` bytes; the returned offset points at the
value bytes. -/
def BlobFileBuilder.WriteBlobToFile (env : StepEnv) (st : BuilderState)
    (key blob : List Nat) : WriteResult :=
  match st.writer with
  | none => ⟨Status.ioError, 0, 0, st⟩
  | some w =>
    if env.addRecordOk = false then
      ⟨Status.ioError, 0, 0, st⟩
    else
      let blobOffset := w.fileSize + BlobLogRecord.kHeaderSize + key.length
      let recordSize := BlobLogRecord.kHeaderSize + key.length + blob.length
      ⟨Status.ok, w.logNumber, blobOffset,
        { st with
          writer := some ⟨w.logNumber, w.fileSize + recordSize,
                          w.records ++ [⟨key, blob, blobOffset⟩]⟩,
          blobCount := st.blobCount + 1,
          blobBytes := st.blobBytes + recordSize,
          events := st.events ++ [BuilderEvent.recordWritten w.logNumber] }⟩

/-- `BlobFileBuilder::CloseBlobFile`: append the footer (a failure there
leaves the writer in place and publishes nothing); on footer success invoke
the completion callback if present, then append the addition record
regardless of the callback result, seal the file, drop the writer and reset
the counters.  The callback status is the returned status. -/
def BlobFileBuilder.CloseBlobFile (cfg : BuilderConfig) (env : StepEnv)
    (st : BuilderState) : Status × BuilderState :=
  match st.writer with
  | none => (Status.ioError, st)
  | some w =>
    if env.appendFooterOk = false then
      (Status.ioError, st)
    else
      let s := if cfg.hasBlobCallback then env.callbackStatus else Status.ok
      (s,
        { st with
          writer := none,
          blobCount := 0,
          blobBytes := 0,
          additions := st.additions ++
            [⟨w.logNumber, st.blobCount, st.blobBytes, env.checksumMethod, env.checksumValue⟩],
          sealedFiles := st.sealedFiles ++ [⟨w.logNumber, w.records⟩],
          events := st.events ++ [BuilderEvent.footerWritten w.logNumber] })

/-- `BlobFileBuilder::CloseBlobFileIfNeeded`: roll the file over exactly when
its current size has reached the target `blob_file_size`. -/
def BlobFileBuilder.CloseBlobFileIfNeeded (cfg : BuilderConfig) (env : StepEnv)
    (st : BuilderState) : Status × BuilderState :=
  match st.writer with
  | none => (Status.ioError, st)
  | some w =>
    if w.fileSize < cfg.blobFileSize then
      (Status.ok, st)
    else
      BlobFileBuilder.CloseBlobFile cfg env st

/-- `BlobFileBuilder::PutBlobIntoCache`: insert an owned copy of the blob
into the blob cache; the insert may fail (capacity), which only the caller's
logging sees. -/
def BlobFileBuilder.PutBlobIntoCache (env : StepEnv) (st : BuilderState)
    (key : CacheKey) (blob : List Nat) : Status × BuilderState :=
  if env.cacheInsertOk then
    (Status.ok, { st with blobCache := cacheInsert st.blobCache key blob })
  else
    (Status.incomplete, st)

/-- `BlobFileBuilder::PutBlobIntoCacheIfNeeded`: warm the cache only when a
blob cache is configured, the prepopulation policy matches the creation
reason, and the blob is uncompressed; the cache key uses
`std::numeric_limits<uint64_t>::max()` in place of the (unknown) file
size. -/
def BlobFileBuilder.PutBlobIntoCacheIfNeeded (cfg : BuilderConfig) (env : StepEnv)
    (st : BuilderState) (blob : List Nat) (blobFileNumber blobOffset : Nat) :
    Status × BuilderState :=
  if cfg.hasBlobCache then
    let warmCache : Bool :=
      match cfg.prepopulateBlobCache with
      | PrepopulateBlobCache.kPrepopulateBlobFlushOnly =>
        decide (cfg.creationReason = BlobFileCreationReason.kFlush)
      | PrepopulateBlobCache.kPrepopulateBlobDisable => false
    if warmCache then
      if cfg.blobCompressionType = CompressionType.kNoCompression then
        let baseCacheKey : OffsetableCacheKey :=
          ⟨cfg.dbId, cfg.dbSessionId, blobFileNumber, u64Max⟩
        BlobFileBuilder.PutBlobIntoCache env st (baseCacheKey.WithOffset blobOffset) blob
      else
        (Status.ok, st)
    else
      (Status.ok, st)
  else
    (Status.ok, st)

/-- `BlobIndex` decoded form: `EncodeBlob` writes the file number, the offset,
the size passed by the caller, and the compression type. -/
structure BlobIndex where
  fileNumber : Nat
  offset : Nat
  size : Nat
  compression : CompressionType
deriving DecidableEq, Repr

/-- Result of `BlobFileBuilder::Add`; `blobIndex = none` models the empty
blob index (the output string left untouched). -/
structure AddResult where
  status : Status
  blobIndex : Option BlobIndex
  state : BuilderState
deriving DecidableEq, Repr

/-- `BlobFileBuilder::Add`: inline small values; otherwise open a file if
needed, compress (discarding the compressed bytes, exactly as the source
does), append the *uncompressed* value, roll over if the target size is
reached, opportunistically warm the cache (failures only logged), and encode
the blob index with the uncompressed size and the configured compression
type. -/
def BlobFileBuilder.Add (cfg : BuilderConfig) (env : StepEnv) (st : BuilderState)
    (key value : List Nat) : AddResult :=
  if value.length < cfg.minBlobSize then
    ⟨Status.ok, none, st⟩
  else
    match BlobFileBuilder.OpenBlobFileIfNeeded cfg env st with
    | (Status.ok, st1) =>
      let blob := value
      match BlobFileBuilder.CompressBlobIfNeeded cfg env blob with
      | (Status.ok, _compressedBlob) =>
        match BlobFileBuilder.WriteBlobToFile env st1 key blob with
        | ⟨Status.ok, blobFileNumber, blobOffset, st2⟩ =>
          match BlobFileBuilder.CloseBlobFileIfNeeded cfg env st2 with
          | (Status.ok, st3) =>
            let st4 :=
              (BlobFileBuilder.PutBlobIntoCacheIfNeeded cfg env st3 blob
                blobFileNumber blobOffset).2
            ⟨Status.ok,
              some ⟨blobFileNumber, blobOffset, blob.length, cfg.blobCompressionType⟩,
              st4⟩
          | (s, st3) => ⟨s, none, st3⟩
        | ⟨s, _, _, st2⟩ => ⟨s, none, st2⟩
      | (s, _) => ⟨s, none, st1⟩
    | (s, st1) => ⟨s, none, st1⟩

/-- `BlobFileBuilder::Finish`: a no-op when no file is open, otherwise close
the open file. -/
def BlobFileBuilder.Finish (cfg : BuilderConfig) (env : StepEnv)
    (st : BuilderState) : Status × BuilderState :=
  match st.writer with
  | none => (Status.ok, st)
  | some _ => BlobFileBuilder.CloseBlobFile cfg env st

/-- `BlobFileBuilder::Abandon`: a no-op when no file is open; otherwise the
completion callback is invoked with its error ignored, the writer is dropped
and the counters reset.  Nothing is removed from the paths collector and no
addition is emitted. -/
def BlobFileBuilder.Abandon (st : BuilderState) : BuilderState :=
  match st.writer with
  | none => st
  | some _ => { st with writer := none, blobCount := 0, blobBytes := 0 }

/-- One public builder operation together with the collaborator outcomes it
runs under. -/
inductive BuilderCommand where
  | add (key value : List Nat) (env : StepEnv)
  | finish (env : StepEnv)
  | abandon
deriving Repr

/-- Effect of one public operation on the builder state. -/
def BlobFileBuilder.step (cfg : BuilderConfig) (st : BuilderState) :
    BuilderCommand → BuilderState
  | BuilderCommand.add key value env => (BlobFileBuilder.Add cfg env st key value).state
  | BuilderCommand.finish env => (BlobFileBuilder.Finish cfg env st).2
  | BuilderCommand.abandon => BlobFileBuilder.Abandon st

/-- A run of public operations against the builder. -/
def BlobFileBuilder.run (cfg : BuilderConfig) (st : BuilderState) :
    List BuilderCommand → BuilderState
  | [] => st
  | c :: cs => BlobFileBuilder.run cfg (BlobFileBuilder.step cfg st c) cs

/-- `ReadTier` values recognized by the reader. -/
inductive ReadTier where
  | kReadAllTier
  | kBlockCacheTier
deriving DecidableEq, Repr

/-- Modelled from the spec: look a blob file up by file number
(`BlobFileCache::GetBlobFileReader`; a missing file is an I/O error). -/
def FindFile (files : List SealedFile) (fileNumber : Nat) : Option SealedFile :=
  files.find? (fun f => f.fileNumber == fileNumber)

/-- Modelled from the spec: locate the record whose value bytes start at the
given offset within a file. -/
def FindRecord (f : SealedFile) (offset : Nat) : Option BlobRecord :=
  f.records.find? (fun r => r.blobOffset == offset)

/-- Modelled from the spec: `BlobFileReader::GetBlob` (§4.5), the filesystem
path of a read.  Reads the record preceding `offset`, checks that the stored
key matches the caller-supplied key and that the stored value has the
requested on-disk length (a mismatch surfaces as corruption, as a checksum
failure would), decompresses iff the compression type is not `none`, and
reports `kHeaderSize + |key| + size` bytes read. -/
def BlobFileReader.GetBlob (files : List SealedFile) (fileNumber : Nat)
    (key : List Nat) (offset size : Nat) (compression : CompressionType) :
    Status × List Nat × Nat :=
  match FindFile files fileNumber with
  | none => (Status.ioError, [], 0)
  | some f =>
    match FindRecord f offset with
    | none => (Status.ioError, [], 0)
    | some r =>
      if r.keyBytes ≠ key then
        (Status.corruption, [], 0)
      else if r.valueBytes.length ≠ size then
        (Status.corruption, [], 0)
      else
        match UncompressData compression r.valueBytes with
        | none => (Status.corruption, [], 0)
        | some v =>
          (Status.ok, v, BlobLogRecord.kHeaderSize + key.length + size)

/-- Result of `BlobSource::GetBlob`: status, value, on-disk bytes read,
number of filesystem record reads performed, and the cache afterwards. -/
structure GetBlobResult where
  status : Status
  value : List Nat
  bytesRead : Nat
  fsReads : Nat
  cache : BlobCache
deriving DecidableEq, Repr

/-- Modelled from the spec: the read-time cache key derivation — the
*actual* file size is fed into the fingerprint (§4.7 step 1). -/
def BlobSource.readCacheKey (dbId dbSessionId : String)
    (fileNumber fileSize offset : Nat) : CacheKey :=
  OffsetableCacheKey.WithOffset ⟨dbId, dbSessionId, fileNumber, fileSize⟩ offset

/-- Modelled from the spec: `BlobSource::GetBlob` (§4.7).  Derive the cache
key from the actual file size; a cache hit returns the cached value with
zero bytes read and no filesystem access; a miss in cache-only mode is
`incomplete`; otherwise read through the file reader and, when `fill_cache`
is set and the read succeeded, insert the value into the cache. -/
def BlobSource.GetBlob (dbId dbSessionId : String) (files : List SealedFile)
    (cache : BlobCache) (readTier : ReadTier) (fillCache : Bool)
    (key : List Nat) (fileNumber offset fileSize size : Nat)
    (compression : CompressionType) : GetBlobResult :=
  let cacheKey := BlobSource.readCacheKey dbId dbSessionId fileNumber fileSize offset
  match cacheLookup cache cacheKey with
  | some v => ⟨Status.ok, v, 0, 0, cache⟩
  | none =>
    match readTier with
    | ReadTier.kBlockCacheTier => ⟨Status.incomplete, [], 0, 0, cache⟩
    | ReadTier.kReadAllTier =>
      match BlobFileReader.GetBlob files fileNumber key offset size compression with
      | (Status.ok, v, bytesRead) =>
        let cache1 := if fillCache then cacheInsert cache cacheKey v else cache
        ⟨Status.ok, v, bytesRead, 1, cache1⟩
      | (s, _, _) =>
        ⟨s, [], 0, if (FindFile files fileNumber).isSome then 1 else 0, cache⟩

/-- One request of a batched read against a single file
(`BlobReadRequest`): the user key, the value offset and on-disk length, and
the compression type from the blob index. -/
structure BlobReadRequest where
  key : List Nat
  offset : Nat
  size : Nat
  compression : CompressionType
deriving DecidableEq, Repr

/-- All requests against one file in a `MultiGetBlob` batch
(`BlobFileReadRequests`). -/
structure BlobFileReadRequests where
  fileNumber : Nat
  fileSize : Nat
  requests : List BlobReadRequest
deriving DecidableEq, Repr

/-- Modelled from the spec: the miss path of one request inside
`BlobSource::MultiGetBlobFromOneFile` — in cache-only mode the miss is
`incomplete`; otherwise the record is read through the file reader and, on
success with `fill_cache`, inserted into the cache. -/
def BlobSource.readMiss (files : List SealedFile) (cache : BlobCache)
    (readTier : ReadTier) (fillCache : Bool) (cacheKey : CacheKey)
    (fileNumber : Nat) (r : BlobReadRequest) :
    (Status × List Nat) × BlobCache :=
  match readTier with
  | ReadTier.kBlockCacheTier => ((Status.incomplete, []), cache)
  | ReadTier.kReadAllTier =>
    match BlobFileReader.GetBlob files fileNumber r.key r.offset r.size r.compression with
    | (Status.ok, v, _) =>
      ((Status.ok, v), if fillCache then cacheInsert cache cacheKey v else cache)
    | (s, _, _) => ((s, []), cache)

/-- Modelled from the spec: the second phase of
`BlobSource::MultiGetBlobFromOneFile` — every request was already probed
against the cache (the probe results are paired with the requests); hits
return the cached value, misses go through `readMiss`, and each request's
status is reported independently. -/
def BlobSource.processProbed (dbId dbSessionId : String) (files : List SealedFile)
    (readTier : ReadTier) (fillCache : Bool) (fileNumber fileSize : Nat)
    (cache : BlobCache) :
    List (BlobReadRequest × Option (List Nat)) → List (Status × List Nat) × BlobCache
  | [] => ([], cache)
  | (r, probe) :: rest =>
    match probe with
    | some v =>
      let (tail, cacheEnd) :=
        BlobSource.processProbed dbId dbSessionId files readTier fillCache
          fileNumber fileSize cache rest
      ((Status.ok, v) :: tail, cacheEnd)
    | none =>
      let cacheKey := BlobSource.readCacheKey dbId dbSessionId fileNumber fileSize r.offset
      let (res, cache1) :=
        BlobSource.readMiss files cache readTier fillCache cacheKey fileNumber r
      let (tail, cacheEnd) :=
        BlobSource.processProbed dbId dbSessionId files readTier fillCache
          fileNumber fileSize cache1 rest
      (res :: tail, cacheEnd)

/-- Modelled from the spec: `BlobSource::MultiGetBlobFromOneFile` — probe the
cache for every request first, then satisfy the misses from the file. -/
def BlobSource.MultiGetBlobFromOneFile (dbId dbSessionId : String)
    (files : List SealedFile) (cache : BlobCache) (readTier : ReadTier)
    (fillCache : Bool) (fileNumber fileSize : Nat)
    (requests : List BlobReadRequest) : List (Status × List Nat) × BlobCache :=
  let probed := requests.map (fun r =>
    (r, cacheLookup cache (BlobSource.readCacheKey dbId dbSessionId fileNumber fileSize r.offset)))
  BlobSource.processProbed dbId dbSessionId files readTier fillCache
    fileNumber fileSize cache probed

/-- Modelled from the spec: `BlobSource::MultiGetBlob` — requests grouped by
file, each group handled by `MultiGetBlobFromOneFile`, statuses independent
across groups. -/
def BlobSource.MultiGetBlob (dbId dbSessionId : String) (files : List SealedFile)
    (cache : BlobCache) (readTier : ReadTier) (fillCache : Bool) :
    List BlobFileReadRequests → List (List (Status × List Nat)) × BlobCache
  | [] => ([], cache)
  | g :: gs =>
    let (res, cache1) :=
      BlobSource.MultiGetBlobFromOneFile dbId dbSessionId files cache readTier
        fillCache g.fileNumber g.fileSize g.requests
    let (tail, cacheEnd) :=
      BlobSource.MultiGetBlob dbId dbSessionId files cache1 readTier fillCache gs
    (res :: tail, cacheEnd)

/-! ## Basic cache lemmas -/

theorem cacheLookup_insert_self (c : BlobCache) (k : CacheKey) (v : List Nat) :
    cacheLookup (cacheInsert c k v) k = some v := by
  simp [cacheInsert, cacheLookup]

theorem cacheLookup_insert_ne (c : BlobCache) (k0 k : CacheKey) (v : List Nat)
    (h : k0 ≠ k) : cacheLookup (cacheInsert c k0 v) k = cacheLookup c k := by
  simp [cacheInsert, cacheLookup, h]

/-! ## Concrete fixtures used by the witnesses -/

/-- Concrete db identity used by the fixtures. -/
def dbW : String := "db"

/-- Concrete db session id used by the fixtures. -/
def sessW : String := "s1"

/-- Concrete column-family path used by the fixtures. -/
def cfW : String := "cf"

/-- A configuration with inlining threshold 5, no compression, flush-only
prepopulation without a cache, no callback. -/
def cfgPlain : BuilderConfig :=
  ⟨5, 1000, CompressionType.kNoCompression, PrepopulateBlobCache.kPrepopulateBlobDisable,
   false, false, BlobFileCreationReason.kFlush, "cf", "db", "s1"⟩

/-- A configuration with a failing-callback close in scope: callback present. -/
def cfgCallback : BuilderConfig :=
  ⟨0, 1000, CompressionType.kNoCompression, PrepopulateBlobCache.kPrepopulateBlobDisable,
   false, true, BlobFileCreationReason.kFlush, "cf", "db", "s1"⟩

/-- An environment whose completion callback fails with `busy`. -/
def envCallbackFail : StepEnv :=
  ⟨true, true, true, true, true, 1, 2, Status.busy, true⟩

/-! ## C4 -/

/-- C4: for every value with `len(value) < min_blob_size`, `Add` returns
success with an empty blob index and the builder state — writer, counters,
paths, additions, files on disk, cache and trace — is unchanged. -/
theorem C4_inline_threshold_no_state_change (cfg : BuilderConfig) (env : StepEnv)
    (st : BuilderState) (key value : List Nat)
    (h : value.length < cfg.minBlobSize) :
    BlobFileBuilder.Add cfg env st key value = ⟨Status.ok, none, st⟩ := by
  simp [BlobFileBuilder.Add, h]

/-- Witness for C4 at a concrete input. -/
theorem C4_witness :
    ([9, 9] : List Nat).length < cfgPlain.minBlobSize ∧
    BlobFileBuilder.Add cfgPlain StepEnv.allOk (BuilderState.init 1) [1] [9, 9] =
      ⟨Status.ok, none, BuilderState.init 1⟩ :=
  ⟨by decide,
   C4_inline_threshold_no_state_change cfgPlain StepEnv.allOk (BuilderState.init 1)
     [1] [9, 9] (by decide)⟩

/-! ## C3 -/

/-- C3: when the footer write succeeds but the completion callback fails,
`CloseBlobFile` returns the callback's failing status, and the addition
record `(file_number, blob_count, blob_bytes, checksum_method,
checksum_value)` is still appended to the additions collector. -/
theorem C3_callback_failure_close_result_addition_recorded
    (cfg : BuilderConfig) (env : StepEnv) (st : BuilderState) (w : WriterState)
    (hw : st.writer = some w)
    (hft : env.appendFooterOk = true)
    (hcb : cfg.hasBlobCallback = true)
    (hfail : env.callbackStatus ≠ Status.ok) :
    (BlobFileBuilder.CloseBlobFile cfg env st).1 = env.callbackStatus ∧
    (BlobFileBuilder.CloseBlobFile cfg env st).1 ≠ Status.ok ∧
    (BlobFileBuilder.CloseBlobFile cfg env st).2.additions =
      st.additions ++
        [⟨w.logNumber, st.blobCount, st.blobBytes, env.checksumMethod, env.checksumValue⟩] := by
  simp [BlobFileBuilder.CloseBlobFile, hw, hft, hcb, hfail]

/-- Witness for C3: a concrete open state closed under a failing callback. -/
theorem C3_witness :
    (BuilderState.mk (some ⟨1, 70, []⟩) 1 40 [] [] 2 [] [] []).writer = some ⟨1, 70, []⟩ ∧
    envCallbackFail.appendFooterOk = true ∧
    cfgCallback.hasBlobCallback = true ∧
    envCallbackFail.callbackStatus ≠ Status.ok ∧
    ((BlobFileBuilder.CloseBlobFile cfgCallback envCallbackFail
        (BuilderState.mk (some ⟨1, 70, []⟩) 1 40 [] [] 2 [] [] [])).1 =
      envCallbackFail.callbackStatus ∧
     (BlobFileBuilder.CloseBlobFile cfgCallback envCallbackFail
        (BuilderState.mk (some ⟨1, 70, []⟩) 1 40 [] [] 2 [] [] [])).1 ≠ Status.ok ∧
     (BlobFileBuilder.CloseBlobFile cfgCallback envCallbackFail
        (BuilderState.mk (some ⟨1, 70, []⟩) 1 40 [] [] 2 [] [] [])).2.additions =
      [] ++ [⟨1, 1, 40, envCallbackFail.checksumMethod, envCallbackFail.checksumValue⟩]) :=
  ⟨rfl, rfl, rfl, by decide,
   C3_callback_failure_close_result_addition_recorded cfgCallback envCallbackFail
     (BuilderState.mk (some ⟨1, 70, []⟩) 1 40 [] [] 2 [] [] []) ⟨1, 70, []⟩
     rfl rfl rfl (by decide)⟩

/-! ## C6 -/

/-- C6: when an `Add` call reaches the cache warm-up step (the value is not
inlined and every earlier step succeeds), a failing cache insertion never
fails the call: `Add` still returns success and still encodes a blob
index. -/
theorem C6_cache_insert_failure_never_fails_add
    (cfg : BuilderConfig) (env : StepEnv) (st : BuilderState) (key value : List Nat)
    (hmin : ¬ value.length < cfg.minBlobSize)
    (hnf : env.newFileOk = true) (hwh : env.writeHeaderOk = true)
    (hcmp : env.compressOk = true) (har : env.addRecordOk = true)
    (hft : env.appendFooterOk = true)
    (hcb : cfg.hasBlobCallback = false) :
    (BlobFileBuilder.Add cfg { env with cacheInsertOk := false } st key value).status =
      Status.ok ∧
    (BlobFileBuilder.Add cfg { env with cacheInsertOk := false } st key value).blobIndex.isSome =
      true := by
  rcases hwr : st.writer with _ | w <;>
    rcases hct : cfg.blobCompressionType <;>
      simp [BlobFileBuilder.Add, BlobFileBuilder.OpenBlobFileIfNeeded,
        BlobFileBuilder.CompressBlobIfNeeded, BlobFileBuilder.WriteBlobToFile,
        BlobFileBuilder.CloseBlobFileIfNeeded, BlobFileBuilder.CloseBlobFile,
        BlobFileBuilder.PutBlobIntoCacheIfNeeded, BlobFileBuilder.PutBlobIntoCache,
        hmin, hnf, hwh, hcmp, har, hft, hcb, hwr, hct] <;>
      split_ifs <;> simp

/-- Witness for C6: a concrete `Add` under a failing cache insert. -/
theorem C6_witness :
    ¬ ([7, 7, 7, 7, 7] : List Nat).length < cfgPlain.minBlobSize ∧
    StepEnv.allOk.newFileOk = true ∧ StepEnv.allOk.writeHeaderOk = true ∧
    StepEnv.allOk.compressOk = true ∧ StepEnv.allOk.addRecordOk = true ∧
    StepEnv.allOk.appendFooterOk = true ∧ cfgPlain.hasBlobCallback = false ∧
    ((BlobFileBuilder.Add cfgPlain { StepEnv.allOk with cacheInsertOk := false }
        (BuilderState.init 1) [1, 2] [7, 7, 7, 7, 7]).status = Status.ok ∧
     (BlobFileBuilder.Add cfgPlain { StepEnv.allOk with cacheInsertOk := false }
        (BuilderState.init 1) [1, 2] [7, 7, 7, 7, 7]).blobIndex.isSome = true) :=
  ⟨by decide, rfl, rfl, rfl, rfl, rfl, rfl,
   C6_cache_insert_failure_never_fails_add cfgPlain StepEnv.allOk (BuilderState.init 1)
     [1, 2] [7, 7, 7, 7, 7] (by decide) rfl rfl rfl rfl rfl rfl⟩

/-! ## C7 -/

/-- C7: under warm-up conditions the builder inserts the blob under a cache
key whose file-size component is the `u64::MAX` sentinel, while the
read-time derivation uses the actual file size; for any actual file size
other than the sentinel the two keys differ, so a read-time lookup never
finds the warm-up entry (the lookup result is unchanged by the warm-up
insertion). -/
theorem C7_warm_key_mismatch_invisible
    (cfg : BuilderConfig) (env : StepEnv) (st : BuilderState) (blob : List Nat)
    (fileNumber blobOffset fileSize : Nat)
    (hcache : cfg.hasBlobCache = true)
    (hpol : cfg.prepopulateBlobCache = PrepopulateBlobCache.kPrepopulateBlobFlushOnly)
    (hreason : cfg.creationReason = BlobFileCreationReason.kFlush)
    (hcomp : cfg.blobCompressionType = CompressionType.kNoCompression)
    (hins : env.cacheInsertOk = true)
    (hsize : fileSize ≠ u64Max) :
    (BlobFileBuilder.PutBlobIntoCacheIfNeeded cfg env st blob fileNumber blobOffset).2.blobCache =
      cacheInsert st.blobCache ⟨cfg.dbId, cfg.dbSessionId, fileNumber, u64Max, blobOffset⟩ blob ∧
    (⟨cfg.dbId, cfg.dbSessionId, fileNumber, u64Max, blobOffset⟩ : CacheKey) ≠
      BlobSource.readCacheKey cfg.dbId cfg.dbSessionId fileNumber fileSize blobOffset ∧
    cacheLookup
      (BlobFileBuilder.PutBlobIntoCacheIfNeeded cfg env st blob fileNumber blobOffset).2.blobCache
      (BlobSource.readCacheKey cfg.dbId cfg.dbSessionId fileNumber fileSize blobOffset) =
    cacheLookup st.blobCache
      (BlobSource.readCacheKey cfg.dbId cfg.dbSessionId fileNumber fileSize blobOffset) := by
  have hne : (⟨cfg.dbId, cfg.dbSessionId, fileNumber, u64Max, blobOffset⟩ : CacheKey) ≠
      BlobSource.readCacheKey cfg.dbId cfg.dbSessionId fileNumber fileSize blobOffset := by
    simp [BlobSource.readCacheKey, OffsetableCacheKey.WithOffset, CacheKey.mk.injEq]
    intro h
    exact hsize h.symm
  have hc : (BlobFileBuilder.PutBlobIntoCacheIfNeeded cfg env st blob fileNumber blobOffset).2.blobCache =
      cacheInsert st.blobCache ⟨cfg.dbId, cfg.dbSessionId, fileNumber, u64Max, blobOffset⟩ blob := by
    simp [BlobFileBuilder.PutBlobIntoCacheIfNeeded, BlobFileBuilder.PutBlobIntoCache,
      OffsetableCacheKey.WithOffset, hcache, hpol, hreason, hcomp, hins]
  refine ⟨hc, hne, ?_⟩
  rw [hc]
  exact cacheLookup_insert_ne _ _ _ _ hne

/-- A configuration that warms the blob cache: cache present, flush-only
prepopulation, flush creation reason, no compression. -/
def cfgWarm : BuilderConfig :=
  ⟨0, 1000, CompressionType.kNoCompression, PrepopulateBlobCache.kPrepopulateBlobFlushOnly,
   true, false, BlobFileCreationReason.kFlush, "cf", "db", "s1"⟩

/-- Witness for C7 at a concrete warm-up insertion. -/
theorem C7_witness :
    cfgWarm.hasBlobCache = true ∧
    cfgWarm.prepopulateBlobCache = PrepopulateBlobCache.kPrepopulateBlobFlushOnly ∧
    cfgWarm.creationReason = BlobFileCreationReason.kFlush ∧
    cfgWarm.blobCompressionType = CompressionType.kNoCompression ∧
    StepEnv.allOk.cacheInsertOk = true ∧
    (102 : Nat) ≠ u64Max ∧
    ((BlobFileBuilder.PutBlobIntoCacheIfNeeded cfgWarm StepEnv.allOk
        (BuilderState.init 1) [4, 5] 1 65).2.blobCache =
      cacheInsert (BuilderState.init 1).blobCache
        ⟨cfgWarm.dbId, cfgWarm.dbSessionId, 1, u64Max, 65⟩ [4, 5] ∧
     (⟨cfgWarm.dbId, cfgWarm.dbSessionId, 1, u64Max, 65⟩ : CacheKey) ≠
      BlobSource.readCacheKey cfgWarm.dbId cfgWarm.dbSessionId 1 102 65 ∧
     cacheLookup
       (BlobFileBuilder.PutBlobIntoCacheIfNeeded cfgWarm StepEnv.allOk
         (BuilderState.init 1) [4, 5] 1 65).2.blobCache
       (BlobSource.readCacheKey cfgWarm.dbId cfgWarm.dbSessionId 1 102 65) =
     cacheLookup (BuilderState.init 1).blobCache
       (BlobSource.readCacheKey cfgWarm.dbId cfgWarm.dbSessionId 1 102 65)) :=
  ⟨rfl, rfl, rfl, rfl, rfl, by decide,
   C7_warm_key_mismatch_invisible cfgWarm StepEnv.allOk (BuilderState.init 1)
     [4, 5] 1 65 102 rfl rfl rfl rfl rfl (by decide)⟩

/-! ## C1 -/

/-- A builder configured with snappy compression. -/
def cfgSnappy : BuilderConfig :=
  ⟨1, 1000000000, CompressionType.kSnappyCompression,
   PrepopulateBlobCache.kPrepopulateBlobDisable, false, false,
   BlobFileCreationReason.kFlush, "cf", "db", "s1"⟩

/-- The result of adding key `[1,2,3]`, value `[7,7,7,7,7]` (length ≥
`min_blob_size`) under snappy compression. -/
def addSnappy : AddResult :=
  BlobFileBuilder.Add cfgSnappy StepEnv.allOk (BuilderState.init 1) [1, 2, 3] [7, 7, 7, 7, 7]

/-- The blob files on disk after finishing that builder. -/
def sealedSnappy : List SealedFile :=
  ((BlobFileBuilder.Finish cfgSnappy StepEnv.allOk addSnappy.state).2).sealedFiles

/-- C1 fails on the code: with compression configured, `Add` discards the
compressed blob and writes the *uncompressed* value bytes to the file while
encoding the compression type (and the uncompressed length) into the blob
index; reading back through the blob index therefore decompresses raw bytes
and fails, so `decode(read(blob_index)) == value` does not hold.  This
evaluation at the failing input shows: the add succeeds and returns a
snappy-tagged index; the sealed file holds the raw value bytes even though
their compressed form differs; and the read through the returned index
yields corruption, not the original value. -/
theorem C1_compression_roundtrip_failing_eval :
    addSnappy.status = Status.ok ∧
    addSnappy.blobIndex =
      some ⟨1, 65, 5, CompressionType.kSnappyCompression⟩ ∧
    sealedSnappy = [⟨1, [⟨[1, 2, 3], [7, 7, 7, 7, 7], 65⟩]⟩] ∧
    CompressData CompressionType.kSnappyCompression [7, 7, 7, 7, 7] ≠ [7, 7, 7, 7, 7] ∧
    (BlobSource.GetBlob dbW sessW sealedSnappy [] ReadTier.kReadAllTier true
      [1, 2, 3] 1 65 999 5 CompressionType.kSnappyCompression).status = Status.corruption ∧
    (BlobSource.GetBlob dbW sessW sealedSnappy [] ReadTier.kReadAllTier true
      [1, 2, 3] 1 65 999 5 CompressionType.kSnappyCompression).value ≠ [7, 7, 7, 7, 7] := by
  refine ⟨rfl, rfl, rfl, by decide, rfl, by decide⟩

/-! ## C5 -/

/-- Cache warm-up never touches the writer. -/
theorem putCacheIfNeeded_writer (cfg : BuilderConfig) (env : StepEnv)
    (st : BuilderState) (blob : List Nat) (fn off : Nat) :
    ((BlobFileBuilder.PutBlobIntoCacheIfNeeded cfg env st blob fn off).2).writer = st.writer := by
  rcases hp : cfg.prepopulateBlobCache <;>
    simp only [BlobFileBuilder.PutBlobIntoCacheIfNeeded, BlobFileBuilder.PutBlobIntoCache, hp] <;>
    split_ifs <;> rfl

/-- Cache warm-up never touches the additions collector. -/
theorem putCacheIfNeeded_additions (cfg : BuilderConfig) (env : StepEnv)
    (st : BuilderState) (blob : List Nat) (fn off : Nat) :
    ((BlobFileBuilder.PutBlobIntoCacheIfNeeded cfg env st blob fn off).2).additions =
      st.additions := by
  rcases hp : cfg.prepopulateBlobCache <;>
    simp only [BlobFileBuilder.PutBlobIntoCacheIfNeeded, BlobFileBuilder.PutBlobIntoCache, hp] <;>
    split_ifs <;> rfl

/-- Cache warm-up never touches the files on disk. -/
theorem putCacheIfNeeded_sealedFiles (cfg : BuilderConfig) (env : StepEnv)
    (st : BuilderState) (blob : List Nat) (fn off : Nat) :
    ((BlobFileBuilder.PutBlobIntoCacheIfNeeded cfg env st blob fn off).2).sealedFiles =
      st.sealedFiles := by
  rcases hp : cfg.prepopulateBlobCache <;>
    simp only [BlobFileBuilder.PutBlobIntoCacheIfNeeded, BlobFileBuilder.PutBlobIntoCache, hp] <;>
    split_ifs <;> rfl

/-- The size the blob file holding the record for `(key, value)` has right
after that record is appended by `Add` (header plus previous records plus
this record). -/
def appendedFileSize (st : BuilderState) (key value : List Nat) : Nat :=
  (match st.writer with
   | some w => w.fileSize
   | none => BlobLogHeader.kSize) +
  (BlobLogRecord.kHeaderSize + key.length + value.length)

/-- The number of the file `Add` appends to: the open file's, or the next
generated one. -/
def openFileNumber (st : BuilderState) : Nat :=
  match st.writer with
  | some w => w.logNumber
  | none => st.nextFileNumber

/-- The records already in the file `Add` appends to. -/
def openRecords (st : BuilderState) : List BlobRecord :=
  match st.writer with
  | some w => w.records
  | none => []

/-- The offset at which the value bytes of the appended record land. -/
def appendedBlobOffset (st : BuilderState) (key : List Nat) : Nat :=
  (match st.writer with
   | some w => w.fileSize
   | none => BlobLogHeader.kSize) +
  BlobLogRecord.kHeaderSize + key.length

/-- C5: after a successful record append inside `Add` (value not inlined,
open/compress/append succeed, and the footer write succeeds if attempted),
the open blob file is closed — footer written, addition published — iff its
size after the append has reached the `blob_file_size` target; below the
target the file stays open, and in either case the appended record sits
whole in a single file (the one named by the index), never split. -/
theorem C5_rollover_iff_target_reached
    (cfg : BuilderConfig) (env : StepEnv) (st : BuilderState) (key value : List Nat)
    (hmin : ¬ value.length < cfg.minBlobSize)
    (hnf : env.newFileOk = true) (hwh : env.writeHeaderOk = true)
    (hcmp : env.compressOk = true) (har : env.addRecordOk = true)
    (hft : env.appendFooterOk = true) :
    (cfg.blobFileSize ≤ appendedFileSize st key value →
      (BlobFileBuilder.Add cfg env st key value).state.writer = none ∧
      (BlobFileBuilder.Add cfg env st key value).state.additions =
        st.additions ++
          [⟨openFileNumber st, st.blobCount + 1,
            st.blobBytes + (BlobLogRecord.kHeaderSize + key.length + value.length),
            env.checksumMethod, env.checksumValue⟩] ∧
      (BlobFileBuilder.Add cfg env st key value).state.sealedFiles =
        st.sealedFiles ++
          [⟨openFileNumber st,
            openRecords st ++ [⟨key, value, appendedBlobOffset st key⟩]⟩]) ∧
    (appendedFileSize st key value < cfg.blobFileSize →
      (BlobFileBuilder.Add cfg env st key value).state.writer =
        some ⟨openFileNumber st, appendedFileSize st key value,
              openRecords st ++ [⟨key, value, appendedBlobOffset st key⟩]⟩ ∧
      (BlobFileBuilder.Add cfg env st key value).state.additions = st.additions ∧
      (BlobFileBuilder.Add cfg env st key value).state.sealedFiles = st.sealedFiles) := by
  constructor
  · intro hcond
    rcases hwr : st.writer with _ | w <;>
    rcases hct : cfg.blobCompressionType <;>
    rcases hcb2 : cfg.hasBlobCallback <;>
    rcases hcbs : env.callbackStatus <;>
    simp [appendedFileSize, hwr] at hcond <;>
    simp [BlobFileBuilder.Add, BlobFileBuilder.OpenBlobFileIfNeeded,
      BlobFileBuilder.CompressBlobIfNeeded, BlobFileBuilder.WriteBlobToFile,
      BlobFileBuilder.CloseBlobFileIfNeeded, BlobFileBuilder.CloseBlobFile,
      putCacheIfNeeded_writer, putCacheIfNeeded_additions, putCacheIfNeeded_sealedFiles,
      appendedFileSize, openFileNumber, openRecords, appendedBlobOffset,
      hmin, hnf, hwh, hcmp, har, hft, hwr, hct, hcb2, hcbs, Nat.not_lt.mpr hcond]
  · intro hcond
    rcases hwr : st.writer with _ | w <;>
    rcases hct : cfg.blobCompressionType <;>
    rcases hcb2 : cfg.hasBlobCallback <;>
    rcases hcbs : env.callbackStatus <;>
    simp [appendedFileSize, hwr] at hcond <;>
    simp [BlobFileBuilder.Add, BlobFileBuilder.OpenBlobFileIfNeeded,
      BlobFileBuilder.CompressBlobIfNeeded, BlobFileBuilder.WriteBlobToFile,
      BlobFileBuilder.CloseBlobFileIfNeeded, BlobFileBuilder.CloseBlobFile,
      putCacheIfNeeded_writer, putCacheIfNeeded_additions, putCacheIfNeeded_sealedFiles,
      appendedFileSize, openFileNumber, openRecords, appendedBlobOffset,
      hmin, hnf, hwh, hcmp, har, hft, hwr, hct, hcb2, hcbs, hcond]

/-- A configuration whose rollover target is 100 bytes. -/
def cfgRoll : BuilderConfig :=
  ⟨0, 100, CompressionType.kNoCompression, PrepopulateBlobCache.kPrepopulateBlobDisable,
   false, false, BlobFileCreationReason.kFlush, cfW, dbW, sessW⟩

/-- A 40-byte value: its record (32-byte header + 2-byte key + 40-byte
value) on top of the 30-byte file header gives a 104-byte file, crossing the
100-byte target. -/
def bigValueW : List Nat := List.replicate 40 7

/-- Witness for C5: a concrete add whose appended record crosses the
100-byte target, so the file really rolls over — the writer is dropped, the
addition is published, and the sealed file holds the whole record. -/
theorem C5_witness :
    (¬ bigValueW.length < cfgRoll.minBlobSize) ∧
    cfgRoll.blobFileSize ≤ appendedFileSize (BuilderState.init 1) [1, 2] bigValueW ∧
    ((BlobFileBuilder.Add cfgRoll StepEnv.allOk
        (BuilderState.init 1) [1, 2] bigValueW).state.writer = none ∧
     (BlobFileBuilder.Add cfgRoll StepEnv.allOk
        (BuilderState.init 1) [1, 2] bigValueW).state.additions =
        (BuilderState.init 1).additions ++
          [⟨openFileNumber (BuilderState.init 1), (BuilderState.init 1).blobCount + 1,
            (BuilderState.init 1).blobBytes +
              (BlobLogRecord.kHeaderSize + ([1, 2] : List Nat).length +
                bigValueW.length),
            StepEnv.allOk.checksumMethod, StepEnv.allOk.checksumValue⟩] ∧
     (BlobFileBuilder.Add cfgRoll StepEnv.allOk
        (BuilderState.init 1) [1, 2] bigValueW).state.sealedFiles =
        (BuilderState.init 1).sealedFiles ++
          [⟨openFileNumber (BuilderState.init 1),
            openRecords (BuilderState.init 1) ++
              [⟨[1, 2], bigValueW,
                appendedBlobOffset (BuilderState.init 1) [1, 2]⟩]⟩]) :=
  ⟨by decide, by decide,
   (C5_rollover_iff_target_reached cfgRoll StepEnv.allOk
      (BuilderState.init 1) [1, 2] bigValueW
      (by decide) rfl rfl rfl rfl rfl).1 (by decide)⟩

/-! ## Builder run invariants (C2, C10) -/

/-- The path announced by a creation event, if any. -/
def createdPath : BuilderEvent → Option String
  | BuilderEvent.fileCreated _ p => some p
  | _ => none

/-- The invariant bundle maintained by every builder operation:
counters are zero whenever no file is open; a file number is in the
additions collector iff its footer-written event happened; the paths
collector is exactly the paths of the creation events, in order; the open
writer's file has a creation event; and every record event is preceded by
the creation event of its file. -/
structure BuilderInv (st : BuilderState) : Prop where
  closedZero : st.writer = none → st.blobCount = 0 ∧ st.blobBytes = 0
  additionsIffFooter : ∀ n, (∃ a ∈ st.additions, a.blobFileNumber = n) ↔
    BuilderEvent.footerWritten n ∈ st.events
  pathsEq : st.paths = st.events.filterMap createdPath
  openCreated : ∀ w, st.writer = some w →
    ∃ p, BuilderEvent.fileCreated w.logNumber p ∈ st.events
  createdBefore : ∀ (i n : Nat), st.events[i]? = some (BuilderEvent.recordWritten n) →
    ∃ (j : Nat) (p : String), j < i ∧ st.events[j]? = some (BuilderEvent.fileCreated n p)

theorem BuilderInv.initState (f : Nat) : BuilderInv (BuilderState.init f) := by
  refine ⟨fun _ => ⟨rfl, rfl⟩, fun n => ?_, rfl, fun w hw => ?_, fun i n hi => ?_⟩
  · simp [BuilderState.init]
  · simp [BuilderState.init] at hw
  · simp [BuilderState.init] at hi

/-- Extending a trace preserves the created-before-record ordering provided
every new record event is covered by an old or earlier new creation
event. -/
theorem createdBefore_append (evs delta : List BuilderEvent)
    (h : ∀ (i n : Nat), evs[i]? = some (BuilderEvent.recordWritten n) →
        ∃ (j : Nat) (p : String), j < i ∧ evs[j]? = some (BuilderEvent.fileCreated n p))
    (hd : ∀ (i n : Nat), delta[i]? = some (BuilderEvent.recordWritten n) →
        (∃ p, BuilderEvent.fileCreated n p ∈ evs) ∨
        ∃ (j : Nat) (p : String), j < i ∧ delta[j]? = some (BuilderEvent.fileCreated n p)) :
    ∀ (i n : Nat), (evs ++ delta)[i]? = some (BuilderEvent.recordWritten n) →
      ∃ (j : Nat) (p : String), j < i ∧ (evs ++ delta)[j]? = some (BuilderEvent.fileCreated n p) := by
  intro i n hi
  by_cases hlen : i < evs.length
  · rw [List.getElem?_append_left hlen] at hi
    obtain ⟨j, p, hj, hjp⟩ := h i n hi
    exact ⟨j, p, hj, by rw [List.getElem?_append_left (lt_trans hj hlen)]; exact hjp⟩
  · push_neg at hlen
    rw [List.getElem?_append_right hlen] at hi
    rcases hd _ _ hi with ⟨p, hp⟩ | ⟨j, p, hj, hjp⟩
    · obtain ⟨j, hj⟩ := List.mem_iff_getElem?.1 hp
      have hjlen : j < evs.length := by
        rcases List.getElem?_eq_some.1 hj with ⟨hlt, _⟩
        exact hlt
      refine ⟨j, p, lt_of_lt_of_le hjlen hlen, ?_⟩
      rw [List.getElem?_append_left hjlen]
      exact hj
    · refine ⟨evs.length + j, p, by omega, ?_⟩
      rw [List.getElem?_append_right (by omega)]
      simpa using hjp

theorem inv_open (cfg : BuilderConfig) (env : StepEnv) (st : BuilderState)
    (h : BuilderInv st) : BuilderInv (BlobFileBuilder.OpenBlobFileIfNeeded cfg env st).2 := by
  unfold BlobFileBuilder.OpenBlobFileIfNeeded
  rcases hw : st.writer with _ | w
  · simp only [hw]
    split_ifs with hnf hwh
    · exact ⟨fun _ => h.closedZero hw, h.additionsIffFooter, h.pathsEq,
        fun w2 hw2 => by simp [hw] at hw2, h.createdBefore⟩
    · refine ⟨fun _ => h.closedZero hw, fun n => ?_, ?_,
        fun w2 hw2 => by simp [hw] at hw2, ?_⟩
      · simpa using h.additionsIffFooter n
      · simp [List.filterMap_append, createdPath, h.pathsEq]
      · refine createdBefore_append _ _ h.createdBefore ?_
        intro i n hi
        rcases i with _ | i <;> simp at hi
    · refine ⟨by simp, fun n => ?_, ?_, fun w2 hw2 => ?_, ?_⟩
      · simpa using h.additionsIffFooter n
      · simp [List.filterMap_append, createdPath, h.pathsEq]
      · have hlit := Option.some.inj hw2
        refine ⟨BlobFileName cfg.cfPath st.nextFileNumber, ?_⟩
        rw [← hlit]
        simp
      · refine createdBefore_append _ _ h.createdBefore ?_
        intro i n hi
        rcases i with _ | i <;> simp at hi
  · simpa [hw] using h

theorem inv_write (env : StepEnv) (st : BuilderState) (key blob : List Nat)
    (h : BuilderInv st) : BuilderInv (BlobFileBuilder.WriteBlobToFile env st key blob).state := by
  unfold BlobFileBuilder.WriteBlobToFile
  rcases hw : st.writer with _ | w
  · simpa [hw] using h
  · simp only [hw]
    split_ifs with har
    · simpa [hw] using h
    · refine ⟨by simp, fun n => ?_, ?_, fun w2 hw2 => ?_, ?_⟩
      · simpa using h.additionsIffFooter n
      · simp [List.filterMap_append, createdPath, h.pathsEq]
      · have hlit := Option.some.inj hw2
        obtain ⟨p, hp⟩ := h.openCreated w hw
        refine ⟨p, ?_⟩
        rw [← hlit]
        simp [hp]
      · refine createdBefore_append _ _ h.createdBefore ?_
        intro i n hi
        rcases i with _ | i <;> simp at hi
        obtain ⟨p, hp⟩ := h.openCreated w hw
        exact Or.inl ⟨p, by rw [hi] at hp; exact hp⟩

theorem inv_closeFile (cfg : BuilderConfig) (env : StepEnv) (st : BuilderState)
    (h : BuilderInv st) : BuilderInv (BlobFileBuilder.CloseBlobFile cfg env st).2 := by
  unfold BlobFileBuilder.CloseBlobFile
  rcases hw : st.writer with _ | w
  · simpa [hw] using h
  · have hbody : BuilderInv
        { writer := none, blobCount := 0, blobBytes := 0, paths := st.paths,
          additions := st.additions ++
            [⟨w.logNumber, st.blobCount, st.blobBytes, env.checksumMethod, env.checksumValue⟩],
          nextFileNumber := st.nextFileNumber,
          sealedFiles := st.sealedFiles ++ [⟨w.logNumber, w.records⟩],
          blobCache := st.blobCache,
          events := st.events ++ [BuilderEvent.footerWritten w.logNumber] } := by
      refine ⟨fun _ => ⟨rfl, rfl⟩, fun n => ?_, ?_, by simp, ?_⟩
      · simp only [List.mem_append]
        constructor
        · rintro ⟨a, ha | ha, hfn⟩
          · exact Or.inl ((h.additionsIffFooter n).1 ⟨a, ha, hfn⟩)
          · simp at ha
            subst ha
            simp at hfn
            simp [hfn]
        · rintro (hmem | hmem)
          · obtain ⟨a, ha, hfn⟩ := (h.additionsIffFooter n).2 hmem
            exact ⟨a, Or.inl ha, hfn⟩
          · simp at hmem
            exact ⟨⟨w.logNumber, st.blobCount, st.blobBytes, env.checksumMethod,
                    env.checksumValue⟩, Or.inr (by simp), by simp [hmem]⟩
      · simp [List.filterMap_append, createdPath, h.pathsEq]
      · refine createdBefore_append _ _ h.createdBefore ?_
        intro i n hi
        rcases i with _ | i <;> simp at hi
    simp only [hw]
    split_ifs with hft hcb
    · simpa [hw] using h
    · exact hbody
    · exact hbody

theorem inv_closeIfNeeded (cfg : BuilderConfig) (env : StepEnv) (st : BuilderState)
    (h : BuilderInv st) : BuilderInv (BlobFileBuilder.CloseBlobFileIfNeeded cfg env st).2 := by
  unfold BlobFileBuilder.CloseBlobFileIfNeeded
  rcases hw : st.writer with _ | w
  · simpa [hw] using h
  · simp only [hw]
    split_ifs with hsz
    · simpa [hw] using h
    · exact inv_closeFile cfg env st h

theorem putCacheIfNeeded_shape (cfg : BuilderConfig) (env : StepEnv)
    (st : BuilderState) (blob : List Nat) (fn off : Nat) :
    ∃ c, (BlobFileBuilder.PutBlobIntoCacheIfNeeded cfg env st blob fn off).2 =
      { st with blobCache := c } := by
  rcases hp : cfg.prepopulateBlobCache <;>
    simp only [BlobFileBuilder.PutBlobIntoCacheIfNeeded, BlobFileBuilder.PutBlobIntoCache, hp] <;>
    split_ifs <;> exact ⟨_, rfl⟩

theorem inv_putCacheIfNeeded (cfg : BuilderConfig) (env : StepEnv)
    (st : BuilderState) (blob : List Nat) (fn off : Nat) (h : BuilderInv st) :
    BuilderInv (BlobFileBuilder.PutBlobIntoCacheIfNeeded cfg env st blob fn off).2 := by
  obtain ⟨c, hc⟩ := putCacheIfNeeded_shape cfg env st blob fn off
  rw [hc]
  exact ⟨h.closedZero, h.additionsIffFooter, h.pathsEq, h.openCreated, h.createdBefore⟩

theorem inv_add (cfg : BuilderConfig) (env : StepEnv) (st : BuilderState)
    (key value : List Nat) (h : BuilderInv st) :
    BuilderInv (BlobFileBuilder.Add cfg env st key value).state := by
  unfold BlobFileBuilder.Add
  split_ifs with hmin
  · exact h
  · rcases ho : BlobFileBuilder.OpenBlobFileIfNeeded cfg env st with ⟨s1, st1⟩
    have h1 : BuilderInv st1 := by
      have hh := inv_open cfg env st h
      rw [ho] at hh
      exact hh
    rcases s1
    · simp only []
      rcases hcp : BlobFileBuilder.CompressBlobIfNeeded cfg env value with ⟨s2, cb⟩
      rcases s2
      · simp only []
        rcases hwb : BlobFileBuilder.WriteBlobToFile env st1 key value with ⟨s3, fn, off, st2⟩
        have h2 : BuilderInv st2 := by
          have hh := inv_write env st1 key value h1
          rw [hwb] at hh
          exact hh
        rcases s3
        · simp only []
          rcases hcl : BlobFileBuilder.CloseBlobFileIfNeeded cfg env st2 with ⟨s4, st3⟩
          have h3 : BuilderInv st3 := by
            have hh := inv_closeIfNeeded cfg env st2 h2
            rw [hcl] at hh
            exact hh
          rcases s4
          · exact inv_putCacheIfNeeded cfg env st3 value fn off h3
          · exact h3
          · exact h3
          · exact h3
          · exact h3
        · exact h2
        · exact h2
        · exact h2
        · exact h2
      · exact h1
      · exact h1
      · exact h1
      · exact h1
    · exact h1
    · exact h1
    · exact h1
    · exact h1

theorem inv_finish (cfg : BuilderConfig) (env : StepEnv) (st : BuilderState)
    (h : BuilderInv st) : BuilderInv (BlobFileBuilder.Finish cfg env st).2 := by
  unfold BlobFileBuilder.Finish
  rcases hw : st.writer with _ | w
  · simpa using h
  · exact inv_closeFile cfg env st h

theorem inv_abandon (st : BuilderState) (h : BuilderInv st) :
    BuilderInv (BlobFileBuilder.Abandon st) := by
  unfold BlobFileBuilder.Abandon
  rcases hw : st.writer with _ | w
  · exact h
  · exact ⟨fun _ => ⟨rfl, rfl⟩, h.additionsIffFooter, h.pathsEq, by simp, h.createdBefore⟩

theorem inv_step (cfg : BuilderConfig) (st : BuilderState) (c : BuilderCommand)
    (h : BuilderInv st) : BuilderInv (BlobFileBuilder.step cfg st c) := by
  cases c with
  | add key value env => exact inv_add cfg env st key value h
  | finish env => exact inv_finish cfg env st h
  | abandon => exact inv_abandon st h

theorem inv_run (cfg : BuilderConfig) :
    ∀ (cmds : List BuilderCommand) (st : BuilderState), BuilderInv st →
      BuilderInv (BlobFileBuilder.run cfg st cmds) := by
  intro cmds
  induction cmds with
  | nil => exact fun st h => h
  | cons c cs ih =>
    intro st h
    exact ih _ (inv_step cfg st c h)

/-! ### Paths are append-only -/

theorem open_paths_mono (cfg : BuilderConfig) (env : StepEnv) (st : BuilderState) :
    ∃ d, (BlobFileBuilder.OpenBlobFileIfNeeded cfg env st).2.paths = st.paths ++ d := by
  unfold BlobFileBuilder.OpenBlobFileIfNeeded
  rcases hw : st.writer with _ | w
  · simp only [hw]
    split_ifs with hnf hwh
    · exact ⟨[], by simp⟩
    · exact ⟨[BlobFileName cfg.cfPath st.nextFileNumber], rfl⟩
    · exact ⟨[BlobFileName cfg.cfPath st.nextFileNumber], rfl⟩
  · exact ⟨[], by simp [hw]⟩

theorem write_paths_mono (env : StepEnv) (st : BuilderState) (key blob : List Nat) :
    (BlobFileBuilder.WriteBlobToFile env st key blob).state.paths = st.paths := by
  unfold BlobFileBuilder.WriteBlobToFile
  rcases hw : st.writer with _ | w
  · rfl
  · simp only [hw]
    split_ifs with har <;> rfl

theorem closeFile_paths_mono (cfg : BuilderConfig) (env : StepEnv) (st : BuilderState) :
    (BlobFileBuilder.CloseBlobFile cfg env st).2.paths = st.paths := by
  unfold BlobFileBuilder.CloseBlobFile
  rcases hw : st.writer with _ | w
  · rfl
  · simp only [hw]
    split_ifs with hft hcb <;> rfl

theorem closeIfNeeded_paths_mono (cfg : BuilderConfig) (env : StepEnv) (st : BuilderState) :
    (BlobFileBuilder.CloseBlobFileIfNeeded cfg env st).2.paths = st.paths := by
  unfold BlobFileBuilder.CloseBlobFileIfNeeded
  rcases hw : st.writer with _ | w
  · rfl
  · simp only [hw]
    split_ifs with hsz
    · rfl
    · exact closeFile_paths_mono cfg env st

theorem putCacheIfNeeded_paths_mono (cfg : BuilderConfig) (env : StepEnv)
    (st : BuilderState) (blob : List Nat) (fn off : Nat) :
    (BlobFileBuilder.PutBlobIntoCacheIfNeeded cfg env st blob fn off).2.paths = st.paths := by
  obtain ⟨c, hc⟩ := putCacheIfNeeded_shape cfg env st blob fn off
  rw [hc]

theorem add_paths_mono (cfg : BuilderConfig) (env : StepEnv) (st : BuilderState)
    (key value : List Nat) :
    ∃ d, (BlobFileBuilder.Add cfg env st key value).state.paths = st.paths ++ d := by
  unfold BlobFileBuilder.Add
  split_ifs with hmin
  · exact ⟨[], by simp⟩
  · obtain ⟨d1, hd1⟩ := open_paths_mono cfg env st
    rcases ho : BlobFileBuilder.OpenBlobFileIfNeeded cfg env st with ⟨s1, st1⟩
    have hp1 : st1.paths = st.paths ++ d1 := by
      rw [ho] at hd1
      exact hd1
    rcases s1
    · simp only []
      rcases hcp : BlobFileBuilder.CompressBlobIfNeeded cfg env value with ⟨s2, cb⟩
      rcases s2
      · simp only []
        have hd2 := write_paths_mono env st1 key value
        rcases hwb : BlobFileBuilder.WriteBlobToFile env st1 key value with ⟨s3, fn, off, st2⟩
        have hp2 : st2.paths = st.paths ++ d1 := by
          rw [hwb] at hd2
          rw [hd2]
          exact hp1
        rcases s3
        · simp only []
          have hd3 := closeIfNeeded_paths_mono cfg env st2
          rcases hcl : BlobFileBuilder.CloseBlobFileIfNeeded cfg env st2 with ⟨s4, st3⟩
          have hp3 : st3.paths = st.paths ++ d1 := by
            rw [hcl] at hd3
            rw [hd3]
            exact hp2
          rcases s4
          · refine ⟨d1, ?_⟩
            rw [putCacheIfNeeded_paths_mono cfg env st3 value fn off]
            exact hp3
          · exact ⟨d1, hp3⟩
          · exact ⟨d1, hp3⟩
          · exact ⟨d1, hp3⟩
          · exact ⟨d1, hp3⟩
        · exact ⟨d1, hp2⟩
        · exact ⟨d1, hp2⟩
        · exact ⟨d1, hp2⟩
        · exact ⟨d1, hp2⟩
      · exact ⟨d1, hp1⟩
      · exact ⟨d1, hp1⟩
      · exact ⟨d1, hp1⟩
      · exact ⟨d1, hp1⟩
    · exact ⟨d1, hp1⟩
    · exact ⟨d1, hp1⟩
    · exact ⟨d1, hp1⟩
    · exact ⟨d1, hp1⟩

theorem step_paths_mono (cfg : BuilderConfig) (st : BuilderState) (c : BuilderCommand) :
    ∃ d, (BlobFileBuilder.step cfg st c).paths = st.paths ++ d := by
  cases c with
  | add key value env => exact add_paths_mono cfg env st key value
  | finish env =>
    refine ⟨[], ?_⟩
    rcases hw : st.writer with _ | w <;>
      simp [BlobFileBuilder.step, BlobFileBuilder.Finish, hw, closeFile_paths_mono cfg env st]
  | abandon =>
    refine ⟨[], ?_⟩
    rcases hw : st.writer with _ | w <;>
      simp [BlobFileBuilder.step, BlobFileBuilder.Abandon, hw]

theorem run_paths_mono (cfg : BuilderConfig) :
    ∀ (cmds : List BuilderCommand) (st : BuilderState),
      ∃ d, (BlobFileBuilder.run cfg st cmds).paths = st.paths ++ d := by
  intro cmds
  induction cmds with
  | nil => exact fun st => ⟨[], by simp [BlobFileBuilder.run]⟩
  | cons c cs ih =>
    intro st
    obtain ⟨d1, hd1⟩ := step_paths_mono cfg st c
    obtain ⟨d2, hd2⟩ := ih (BlobFileBuilder.step cfg st c)
    exact ⟨d1 ++ d2, by rw [BlobFileBuilder.run, hd2, hd1, List.append_assoc]⟩

theorem run_append (cfg : BuilderConfig) (cmds1 cmds2 : List BuilderCommand) :
    ∀ st : BuilderState, BlobFileBuilder.run cfg st (cmds1 ++ cmds2) =
      BlobFileBuilder.run cfg (BlobFileBuilder.run cfg st cmds1) cmds2 := by
  induction cmds1 with
  | nil => intro st; rfl
  | cons c cs ih => intro st; exact ih (BlobFileBuilder.step cfg st c)

/-! ## C10 -/

/-- C10: in every state reachable by a run of public operations from a
freshly constructed builder, if no blob file is open then both running
counters `blob_count` and `blob_bytes` are zero. -/
theorem C10_closed_implies_zero_counters (cfg : BuilderConfig) (firstFn : Nat)
    (cmds : List BuilderCommand)
    (h : BlobFileBuilder.IsBlobFileOpen
      (BlobFileBuilder.run cfg (BuilderState.init firstFn) cmds) = false) :
    (BlobFileBuilder.run cfg (BuilderState.init firstFn) cmds).blobCount = 0 ∧
    (BlobFileBuilder.run cfg (BuilderState.init firstFn) cmds).blobBytes = 0 := by
  have hinv := inv_run cfg cmds (BuilderState.init firstFn) (BuilderInv.initState firstFn)
  rcases hw : (BlobFileBuilder.run cfg (BuilderState.init firstFn) cmds).writer with _ | w
  · exact hinv.closedZero hw
  · simp [BlobFileBuilder.IsBlobFileOpen, hw] at h

/-- Witness for C10: an add followed by an abandon leaves the builder closed
with zero counters. -/
theorem C10_witness :
    BlobFileBuilder.IsBlobFileOpen
      (BlobFileBuilder.run cfgPlain (BuilderState.init 1)
        [BuilderCommand.add [1] [7, 7, 7, 7, 7] StepEnv.allOk,
         BuilderCommand.abandon]) = false ∧
    ((BlobFileBuilder.run cfgPlain (BuilderState.init 1)
        [BuilderCommand.add [1] [7, 7, 7, 7, 7] StepEnv.allOk,
         BuilderCommand.abandon]).blobCount = 0 ∧
     (BlobFileBuilder.run cfgPlain (BuilderState.init 1)
        [BuilderCommand.add [1] [7, 7, 7, 7, 7] StepEnv.allOk,
         BuilderCommand.abandon]).blobBytes = 0) :=
  ⟨rfl,
   C10_closed_implies_zero_counters cfgPlain 1
     [BuilderCommand.add [1] [7, 7, 7, 7, 7] StepEnv.allOk,
      BuilderCommand.abandon] rfl⟩

/-! ## C2 -/

/-- C2: in every state reachable from a fresh builder, a file number is in
the additions collector iff that file's footer was written successfully; the
paths collector is exactly the sequence of paths pushed at file-creation
time; every record write is preceded by the creation of its file (so the
path is in the collector before any record of that file is written); and the
paths collector only ever grows under further operations, including
abandons. -/
theorem C2_additions_iff_footer_paths_persist (cfg : BuilderConfig) (firstFn : Nat)
    (cmds : List BuilderCommand) :
    (∀ n : Nat,
      (∃ a ∈ (BlobFileBuilder.run cfg (BuilderState.init firstFn) cmds).additions,
          a.blobFileNumber = n) ↔
        BuilderEvent.footerWritten n ∈
          (BlobFileBuilder.run cfg (BuilderState.init firstFn) cmds).events) ∧
    (BlobFileBuilder.run cfg (BuilderState.init firstFn) cmds).paths =
      ((BlobFileBuilder.run cfg (BuilderState.init firstFn) cmds).events).filterMap
        createdPath ∧
    (∀ (i n : Nat),
      ((BlobFileBuilder.run cfg (BuilderState.init firstFn) cmds).events)[i]? =
          some (BuilderEvent.recordWritten n) →
        ∃ (j : Nat) (p : String), j < i ∧
          ((BlobFileBuilder.run cfg (BuilderState.init firstFn) cmds).events)[j]? =
            some (BuilderEvent.fileCreated n p)) ∧
    (∀ extra : List BuilderCommand, ∃ d : List String,
      (BlobFileBuilder.run cfg (BuilderState.init firstFn) (cmds ++ extra)).paths =
        (BlobFileBuilder.run cfg (BuilderState.init firstFn) cmds).paths ++ d) := by
  have hinv := inv_run cfg cmds (BuilderState.init firstFn) (BuilderInv.initState firstFn)
  refine ⟨hinv.additionsIffFooter, hinv.pathsEq, hinv.createdBefore, fun extra => ?_⟩
  rw [run_append]
  exact run_paths_mono cfg extra _

/-- Witness for C2: the theorem instantiated at a concrete run (an add that
publishes one file via finish, then an abandon). -/
theorem C2_witness :
    (∀ n : Nat,
      (∃ a ∈ (BlobFileBuilder.run cfgPlain (BuilderState.init 1)
          [BuilderCommand.add [1] [7, 7, 7, 7, 7] StepEnv.allOk,
           BuilderCommand.finish StepEnv.allOk]).additions,
          a.blobFileNumber = n) ↔
        BuilderEvent.footerWritten n ∈
          (BlobFileBuilder.run cfgPlain (BuilderState.init 1)
            [BuilderCommand.add [1] [7, 7, 7, 7, 7] StepEnv.allOk,
             BuilderCommand.finish StepEnv.allOk]).events) ∧
    (BlobFileBuilder.run cfgPlain (BuilderState.init 1)
        [BuilderCommand.add [1] [7, 7, 7, 7, 7] StepEnv.allOk,
         BuilderCommand.finish StepEnv.allOk]).paths =
      ((BlobFileBuilder.run cfgPlain (BuilderState.init 1)
          [BuilderCommand.add [1] [7, 7, 7, 7, 7] StepEnv.allOk,
           BuilderCommand.finish StepEnv.allOk]).events).filterMap createdPath ∧
    (∀ (i n : Nat),
      ((BlobFileBuilder.run cfgPlain (BuilderState.init 1)
          [BuilderCommand.add [1] [7, 7, 7, 7, 7] StepEnv.allOk,
           BuilderCommand.finish StepEnv.allOk]).events)[i]? =
          some (BuilderEvent.recordWritten n) →
        ∃ (j : Nat) (p : String), j < i ∧
          ((BlobFileBuilder.run cfgPlain (BuilderState.init 1)
              [BuilderCommand.add [1] [7, 7, 7, 7, 7] StepEnv.allOk,
               BuilderCommand.finish StepEnv.allOk]).events)[j]? =
            some (BuilderEvent.fileCreated n p)) ∧
    (∀ extra : List BuilderCommand, ∃ d : List String,
      (BlobFileBuilder.run cfgPlain (BuilderState.init 1)
          ([BuilderCommand.add [1] [7, 7, 7, 7, 7] StepEnv.allOk,
            BuilderCommand.finish StepEnv.allOk] ++ extra)).paths =
        (BlobFileBuilder.run cfgPlain (BuilderState.init 1)
          [BuilderCommand.add [1] [7, 7, 7, 7, 7] StepEnv.allOk,
           BuilderCommand.finish StepEnv.allOk]).paths ++ d) :=
  C2_additions_iff_footer_paths_persist cfgPlain 1
    [BuilderCommand.add [1] [7, 7, 7, 7, 7] StepEnv.allOk,
     BuilderCommand.finish StepEnv.allOk]

/-! ## C8 -/

/-- C8: after a successful `get_blob` with `fill_cache = true`, a subsequent
`get_blob` for the same file number, offset and file size succeeds from the
cache with the same value, reports `bytes_read = 0`, and performs zero
filesystem reads — whatever the read tier and fill flag of the second
call. -/
theorem C8_cache_hit_no_disk (dbId dbSessionId : String) (files : List SealedFile)
    (cache : BlobCache) (key : List Nat) (fileNumber offset fileSize size : Nat)
    (compression : CompressionType) (tier2 : ReadTier) (fill2 : Bool)
    (h : (BlobSource.GetBlob dbId dbSessionId files cache ReadTier.kReadAllTier true
        key fileNumber offset fileSize size compression).status = Status.ok) :
    (BlobSource.GetBlob dbId dbSessionId files
        (BlobSource.GetBlob dbId dbSessionId files cache ReadTier.kReadAllTier true
          key fileNumber offset fileSize size compression).cache
        tier2 fill2 key fileNumber offset fileSize size compression).status = Status.ok ∧
    (BlobSource.GetBlob dbId dbSessionId files
        (BlobSource.GetBlob dbId dbSessionId files cache ReadTier.kReadAllTier true
          key fileNumber offset fileSize size compression).cache
        tier2 fill2 key fileNumber offset fileSize size compression).value =
      (BlobSource.GetBlob dbId dbSessionId files cache ReadTier.kReadAllTier true
        key fileNumber offset fileSize size compression).value ∧
    (BlobSource.GetBlob dbId dbSessionId files
        (BlobSource.GetBlob dbId dbSessionId files cache ReadTier.kReadAllTier true
          key fileNumber offset fileSize size compression).cache
        tier2 fill2 key fileNumber offset fileSize size compression).bytesRead = 0 ∧
    (BlobSource.GetBlob dbId dbSessionId files
        (BlobSource.GetBlob dbId dbSessionId files cache ReadTier.kReadAllTier true
          key fileNumber offset fileSize size compression).cache
        tier2 fill2 key fileNumber offset fileSize size compression).fsReads = 0 := by
  rcases hl : cacheLookup cache
      (BlobSource.readCacheKey dbId dbSessionId fileNumber fileSize offset) with _ | v
  · rcases hr : BlobFileReader.GetBlob files fileNumber key offset size compression
      with ⟨s, v, br⟩
    rcases s
    · simp [BlobSource.GetBlob, hl, hr, cacheLookup_insert_self]
    · simp [BlobSource.GetBlob, hl, hr] at h
    · simp [BlobSource.GetBlob, hl, hr] at h
    · simp [BlobSource.GetBlob, hl, hr] at h
    · simp [BlobSource.GetBlob, hl, hr] at h
  · simp [BlobSource.GetBlob, hl]

/-- A one-record blob file on disk used by the read-side witnesses. -/
def fileW : SealedFile := ⟨1, [⟨[1, 2, 3], [4, 5, 6], 65⟩]⟩

/-- Witness for C8: a concrete read that fills the cache, then a re-read. -/
theorem C8_witness :
    (BlobSource.GetBlob dbW sessW [fileW] [] ReadTier.kReadAllTier true
      [1, 2, 3] 1 65 104 3 CompressionType.kNoCompression).status = Status.ok ∧
    ((BlobSource.GetBlob dbW sessW [fileW]
        (BlobSource.GetBlob dbW sessW [fileW] [] ReadTier.kReadAllTier true
          [1, 2, 3] 1 65 104 3 CompressionType.kNoCompression).cache
        ReadTier.kReadAllTier true [1, 2, 3] 1 65 104 3
        CompressionType.kNoCompression).status = Status.ok ∧
     (BlobSource.GetBlob dbW sessW [fileW]
        (BlobSource.GetBlob dbW sessW [fileW] [] ReadTier.kReadAllTier true
          [1, 2, 3] 1 65 104 3 CompressionType.kNoCompression).cache
        ReadTier.kReadAllTier true [1, 2, 3] 1 65 104 3
        CompressionType.kNoCompression).value =
      (BlobSource.GetBlob dbW sessW [fileW] [] ReadTier.kReadAllTier true
        [1, 2, 3] 1 65 104 3 CompressionType.kNoCompression).value ∧
     (BlobSource.GetBlob dbW sessW [fileW]
        (BlobSource.GetBlob dbW sessW [fileW] [] ReadTier.kReadAllTier true
          [1, 2, 3] 1 65 104 3 CompressionType.kNoCompression).cache
        ReadTier.kReadAllTier true [1, 2, 3] 1 65 104 3
        CompressionType.kNoCompression).bytesRead = 0 ∧
     (BlobSource.GetBlob dbW sessW [fileW]
        (BlobSource.GetBlob dbW sessW [fileW] [] ReadTier.kReadAllTier true
          [1, 2, 3] 1 65 104 3 CompressionType.kNoCompression).cache
        ReadTier.kReadAllTier true [1, 2, 3] 1 65 104 3
        CompressionType.kNoCompression).fsReads = 0) :=
  ⟨rfl,
   C8_cache_hit_no_disk dbW sessW [fileW] [] [1, 2, 3] 1 65 104 3
     CompressionType.kNoCompression ReadTier.kReadAllTier true rfl⟩

/-! ## C9 -/

/-- The value stored on disk for a (file number, offset) pair, when the file
and the record exist. -/
def correctValue (files : List SealedFile) (fileNumber offset : Nat) :
    Option (List Nat) :=
  match FindFile files fileNumber with
  | none => none
  | some f =>
    match FindRecord f offset with
    | none => none
    | some r => some r.valueBytes

/-- An uncompressed read request that is consistent with what is on disk:
the file exists, the record at the offset exists, and the request carries the
record's key and on-disk value length. -/
def RequestMatches (files : List SealedFile) (fileNumber : Nat)
    (r : BlobReadRequest) : Prop :=
  r.compression = CompressionType.kNoCompression ∧
  ∃ f, FindFile files fileNumber = some f ∧
    ∃ rec, FindRecord f r.offset = some rec ∧
      rec.keyBytes = r.key ∧ rec.valueBytes.length = r.size

/-- Every cache entry holds exactly the value on disk at its key's (file
number, offset). -/
def CacheCoherent (files : List SealedFile) (cache : BlobCache) : Prop :=
  ∀ k v, cacheLookup cache k = some v →
    correctValue files k.fileNumber k.offset = some v

/-- Every request of a group is consistent with the files on disk. -/
def GroupOk (files : List SealedFile) (g : BlobFileReadRequests) : Prop :=
  ∀ r ∈ g.requests, RequestMatches files g.fileNumber r

theorem cacheLookup_insert_cases (c : BlobCache) (k0 k : CacheKey)
    (v0 v : List Nat) (h : cacheLookup (cacheInsert c k0 v0) k = some v) :
    (k0 = k ∧ v0 = v) ∨ cacheLookup c k = some v := by
  by_cases hk : k0 = k
  · left
    refine ⟨hk, ?_⟩
    simpa [cacheInsert, cacheLookup, hk] using h
  · right
    simpa [cacheInsert, cacheLookup, hk] using h

theorem coherent_insert (files : List SealedFile) (cache : BlobCache)
    (k0 : CacheKey) (v0 : List Nat) (h : CacheCoherent files cache)
    (hv : correctValue files k0.fileNumber k0.offset = some v0) :
    CacheCoherent files (cacheInsert cache k0 v0) := by
  intro k v hl
  rcases cacheLookup_insert_cases cache k0 k v0 v hl with ⟨hk, hvv⟩ | hl2
  · subst hk
    subst hvv
    exact hv
  · exact h k v hl2

theorem readerGetBlob_matches (files : List SealedFile) (fn : Nat)
    (r : BlobReadRequest) (hm : RequestMatches files fn r) :
    BlobFileReader.GetBlob files fn r.key r.offset r.size r.compression =
      (Status.ok, (correctValue files fn r.offset).getD [],
       BlobLogRecord.kHeaderSize + r.key.length + r.size) ∧
    correctValue files fn r.offset = some ((correctValue files fn r.offset).getD []) := by
  obtain ⟨hc, f, hf, rec, hrec, hkey, hsize⟩ := hm
  have hcv : correctValue files fn r.offset = some rec.valueBytes := by
    simp [correctValue, hf, hrec]
  rw [hcv]
  exact ⟨by simp [BlobFileReader.GetBlob, hf, hrec, hkey, hsize, hc, UncompressData], rfl⟩

theorem readerGetBlob_missing (files : List SealedFile) (fn : Nat) (key : List Nat)
    (off size : Nat) (comp : CompressionType) (h : FindFile files fn = none) :
    BlobFileReader.GetBlob files fn key off size comp = (Status.ioError, [], 0) := by
  simp [BlobFileReader.GetBlob, h]

/-- Processing a probed request list against an existing file: every result
is OK with the on-disk value, and cache coherence is maintained. -/
theorem processProbed_good (dbId dbSessionId : String) (files : List SealedFile)
    (fn fs : Nat) (fill : Bool) :
    ∀ (ps : List (BlobReadRequest × Option (List Nat))) (cache : BlobCache),
      CacheCoherent files cache →
      (∀ pr ∈ ps, RequestMatches files fn pr.1 ∧
        ∀ v, pr.2 = some v → correctValue files fn pr.1.offset = some v) →
      ∃ res cache2,
        BlobSource.processProbed dbId dbSessionId files ReadTier.kReadAllTier fill
          fn fs cache ps = (res, cache2) ∧
        CacheCoherent files cache2 ∧
        List.Forall₂ (fun (pr : BlobReadRequest × Option (List Nat))
            (rr : Status × List Nat) =>
          rr.1 = Status.ok ∧ some rr.2 = correctValue files fn pr.1.offset) ps res := by
  intro ps
  induction ps with
  | nil => exact fun cache hc _ => ⟨[], cache, rfl, hc, List.Forall₂.nil⟩
  | cons pr rest ih =>
    rcases pr with ⟨r, probe⟩
    intro cache hc hall
    obtain ⟨hm, hprobe⟩ := hall ⟨r, probe⟩ (by simp)
    rcases probe with _ | v
    · obtain ⟨hr, hcv⟩ := readerGetBlob_matches files fn r hm
      have hc1 : CacheCoherent files
          (if fill then
            cacheInsert cache
              (BlobSource.readCacheKey dbId dbSessionId fn fs r.offset)
              ((correctValue files fn r.offset).getD [])
           else cache) := by
        split_ifs
        · exact coherent_insert files cache _ _ hc hcv
        · exact hc
      obtain ⟨res, cache2, heq, hc2, hf2⟩ :=
        ih _ hc1 (fun q hq => hall q (by simp [hq]))
      refine ⟨(Status.ok, (correctValue files fn r.offset).getD []) :: res, cache2,
        ?_, hc2, List.Forall₂.cons ⟨rfl, hcv.symm⟩ hf2⟩
      simp only [BlobSource.processProbed, BlobSource.readMiss, hr, heq]
    · have hcv := hprobe v rfl
      obtain ⟨res, cache2, heq, hc2, hf2⟩ :=
        ih cache hc (fun q hq => hall q (by simp [hq]))
      refine ⟨(Status.ok, v) :: res, cache2, ?_, hc2,
        List.Forall₂.cons ⟨rfl, hcv.symm⟩ hf2⟩
      simp only [BlobSource.processProbed, heq]

/-- Processing probed requests against a non-existent file: every result is
an I/O error with an empty value and the cache is untouched. -/
theorem processProbed_missing (dbId dbSessionId : String) (files : List SealedFile)
    (fn fs : Nat) (fill : Bool) :
    ∀ (ps : List (BlobReadRequest × Option (List Nat))) (cache : BlobCache),
      (∀ pr ∈ ps, pr.2 = (none : Option (List Nat))) →
      FindFile files fn = none →
      BlobSource.processProbed dbId dbSessionId files ReadTier.kReadAllTier fill
        fn fs cache ps =
        (ps.map (fun _ => (Status.ioError, ([] : List Nat))), cache) := by
  intro ps
  induction ps with
  | nil => exact fun cache _ _ => rfl
  | cons pr rest ih =>
    rcases pr with ⟨r, probe⟩
    intro cache hnone hmiss
    have hp : probe = none := hnone ⟨r, probe⟩ (by simp)
    subst hp
    have hread := readerGetBlob_missing files fn r.key r.offset r.size r.compression hmiss
    simp only [BlobSource.processProbed, BlobSource.readMiss, hread,
      ih cache (fun q hq => hnone q (by simp [hq])) hmiss, List.map]

/-- One file group whose requests all match disk: all results OK and
correct, coherence preserved. -/
theorem multiGetOneFile_good (dbId dbSessionId : String) (files : List SealedFile)
    (fn fs : Nat) (fill : Bool) (reqs : List BlobReadRequest) (cache : BlobCache)
    (hc : CacheCoherent files cache)
    (hall : ∀ r ∈ reqs, RequestMatches files fn r) :
    ∃ res cache2,
      BlobSource.MultiGetBlobFromOneFile dbId dbSessionId files cache
        ReadTier.kReadAllTier fill fn fs reqs = (res, cache2) ∧
      CacheCoherent files cache2 ∧
      List.Forall₂ (fun r (rr : Status × List Nat) =>
        rr.1 = Status.ok ∧ some rr.2 = correctValue files fn r.offset) reqs res := by
  have hside : ∀ pr ∈ reqs.map (fun r =>
      (r, cacheLookup cache
        (BlobSource.readCacheKey dbId dbSessionId fn fs r.offset))),
      RequestMatches files fn pr.1 ∧
      ∀ v, pr.2 = some v → correctValue files fn pr.1.offset = some v := by
    intro pr hpr
    obtain ⟨r, hr, hpr2⟩ := List.mem_map.1 hpr
    rw [← hpr2]
    refine ⟨hall r hr, fun v hv => ?_⟩
    have h2 := hc _ _ hv
    simpa [BlobSource.readCacheKey, OffsetableCacheKey.WithOffset] using h2
  obtain ⟨res, cache2, heq, hc2, hf⟩ :=
    processProbed_good dbId dbSessionId files fn fs fill
      (reqs.map (fun r =>
        (r, cacheLookup cache
          (BlobSource.readCacheKey dbId dbSessionId fn fs r.offset))))
      cache hc hside
  refine ⟨res, cache2, heq, hc2, ?_⟩
  exact List.forall₂_map_left_iff.1 hf

/-- One file group against a non-existent file: every request yields
`io_error` with an empty value, and the cache is untouched. -/
theorem multiGetOneFile_missing (dbId dbSessionId : String) (files : List SealedFile)
    (fn fs : Nat) (fill : Bool) (reqs : List BlobReadRequest) (cache : BlobCache)
    (hc : CacheCoherent files cache) (hmiss : FindFile files fn = none) :
    BlobSource.MultiGetBlobFromOneFile dbId dbSessionId files cache
      ReadTier.kReadAllTier fill fn fs reqs =
      (reqs.map (fun _ => (Status.ioError, ([] : List Nat))), cache) := by
  have hprobes : ∀ r : BlobReadRequest,
      cacheLookup cache (BlobSource.readCacheKey dbId dbSessionId fn fs r.offset) =
        none := by
    intro r
    rcases hl : cacheLookup cache
        (BlobSource.readCacheKey dbId dbSessionId fn fs r.offset) with _ | v
    · rfl
    · have := hc _ _ hl
      simp [BlobSource.readCacheKey, OffsetableCacheKey.WithOffset, correctValue,
        hmiss] at this
  unfold BlobSource.MultiGetBlobFromOneFile
  rw [processProbed_missing dbId dbSessionId files fn fs fill _ cache
    (fun pr hpr => by
      obtain ⟨r, _, hpr2⟩ := List.mem_map.1 hpr
      rw [← hpr2]
      exact hprobes r) hmiss]
  simp only [List.map_map]
  rfl

/-- A batch of groups that all match disk: all results OK and correct,
coherence preserved. -/
theorem multiGetBlob_good (dbId dbSessionId : String) (files : List SealedFile)
    (fill : Bool) :
    ∀ (groups : List BlobFileReadRequests) (cache : BlobCache),
      CacheCoherent files cache →
      (∀ g ∈ groups, GroupOk files g) →
      ∃ res cache2,
        BlobSource.MultiGetBlob dbId dbSessionId files cache
          ReadTier.kReadAllTier fill groups = (res, cache2) ∧
        CacheCoherent files cache2 ∧
        List.Forall₂ (fun (g : BlobFileReadRequests) (rs : List (Status × List Nat)) =>
          List.Forall₂ (fun r (rr : Status × List Nat) =>
            rr.1 = Status.ok ∧ some rr.2 = correctValue files g.fileNumber r.offset)
            g.requests rs) groups res := by
  intro groups
  induction groups with
  | nil => exact fun cache hc _ => ⟨[], cache, rfl, hc, List.Forall₂.nil⟩
  | cons g gs ih =>
    intro cache hc hall
    obtain ⟨res1, cache1, heq1, hc1, hf1⟩ :=
      multiGetOneFile_good dbId dbSessionId files g.fileNumber g.fileSize fill
        g.requests cache hc (hall g (by simp))
    obtain ⟨res2, cache2, heq2, hc2, hf2⟩ :=
      ih cache1 hc1 (fun q hq => hall q (by simp [hq]))
    refine ⟨res1 :: res2, cache2, ?_, hc2, List.Forall₂.cons hf1 hf2⟩
    simp only [BlobSource.MultiGetBlob, heq1, heq2]

/-- `MultiGetBlob` distributes over batch concatenation, threading the
cache. -/
theorem multiGetBlob_append (dbId dbSessionId : String) (files : List SealedFile)
    (tier : ReadTier) (fill : Bool) :
    ∀ (gs1 gs2 : List BlobFileReadRequests) (cache : BlobCache),
      BlobSource.MultiGetBlob dbId dbSessionId files cache tier fill (gs1 ++ gs2) =
        ((BlobSource.MultiGetBlob dbId dbSessionId files cache tier fill gs1).1 ++
          (BlobSource.MultiGetBlob dbId dbSessionId files
            (BlobSource.MultiGetBlob dbId dbSessionId files cache tier fill gs1).2
            tier fill gs2).1,
         (BlobSource.MultiGetBlob dbId dbSessionId files
            (BlobSource.MultiGetBlob dbId dbSessionId files cache tier fill gs1).2
            tier fill gs2).2) := by
  intro gs1
  induction gs1 with
  | nil => intro gs2 cache; simp [BlobSource.MultiGetBlob]
  | cons g gs ih =>
    intro gs2 cache
    rcases hg : BlobSource.MultiGetBlobFromOneFile dbId dbSessionId files cache
      tier fill g.fileNumber g.fileSize g.requests with ⟨res1, cache1⟩
    simp only [List.cons_append, List.append_eq, BlobSource.MultiGetBlob, hg,
      ih gs2 cache1]

/-- C9: mixing a group aimed at a non-existent file into a batch of groups
that all match existing files, every request of the injected group returns
`io_error` with an empty value, every request of the other groups still
returns OK with the on-disk value, and those sibling results (and the final
cache) are exactly what the batch without the injected group produces. -/
theorem C9_multiget_batched_independence (dbId dbSessionId : String)
    (files : List SealedFile) (cache : BlobCache) (fill : Bool)
    (groups1 groups2 : List BlobFileReadRequests) (fake : BlobFileReadRequests)
    (hcoh : CacheCoherent files cache)
    (hfake : FindFile files fake.fileNumber = none)
    (hgood : ∀ g ∈ groups1 ++ groups2, GroupOk files g) :
    ∃ res1 res2 cacheEnd,
      BlobSource.MultiGetBlob dbId dbSessionId files cache ReadTier.kReadAllTier
        fill (groups1 ++ fake :: groups2) =
        (res1 ++ (fake.requests.map (fun _ => (Status.ioError, ([] : List Nat)))) ::
          res2, cacheEnd) ∧
      BlobSource.MultiGetBlob dbId dbSessionId files cache ReadTier.kReadAllTier
        fill (groups1 ++ groups2) = (res1 ++ res2, cacheEnd) ∧
      List.Forall₂ (fun (g : BlobFileReadRequests) (rs : List (Status × List Nat)) =>
        List.Forall₂ (fun r (rr : Status × List Nat) =>
          rr.1 = Status.ok ∧ some rr.2 = correctValue files g.fileNumber r.offset)
          g.requests rs) (groups1 ++ groups2) (res1 ++ res2) := by
  obtain ⟨res1, cacheM, heq1, hcM, hf1⟩ :=
    multiGetBlob_good dbId dbSessionId files fill groups1 cache hcoh
      (fun g hg => hgood g (List.mem_append_left _ hg))
  obtain ⟨res2, cacheE, heq2, hcE, hf2⟩ :=
    multiGetBlob_good dbId dbSessionId files fill groups2 cacheM hcM
      (fun g hg => hgood g (List.mem_append_right _ hg))
  have hfakeRun := multiGetOneFile_missing dbId dbSessionId files fake.fileNumber
    fake.fileSize fill fake.requests cacheM hcM hfake
  refine ⟨res1, res2, cacheE, ?_, ?_, List.rel_append hf1 hf2⟩
  · rw [multiGetBlob_append dbId dbSessionId files ReadTier.kReadAllTier fill
      groups1 (fake :: groups2) cache, heq1]
    simp only [BlobSource.MultiGetBlob, hfakeRun, heq2]
  · rw [multiGetBlob_append dbId dbSessionId files ReadTier.kReadAllTier fill
      groups1 groups2 cache, heq1]
    simp only [heq2]

/-- A concrete request matching the record of `fileW`. -/
def reqW : BlobReadRequest := ⟨[1, 2, 3], 65, 3, CompressionType.kNoCompression⟩

/-- A concrete group against the existing file 1. -/
def groupW : BlobFileReadRequests := ⟨1, 104, [reqW]⟩

/-- A concrete group against the non-existent file 100. -/
def fakeGroupW : BlobFileReadRequests := ⟨100, 104, [reqW]⟩

/-- Witness for C9: one real group and one injected non-existent-file group. -/
theorem C9_witness :
    CacheCoherent [fileW] [] ∧
    FindFile [fileW] fakeGroupW.fileNumber = none ∧
    (∀ g ∈ [groupW] ++ ([] : List BlobFileReadRequests), GroupOk [fileW] g) ∧
    (∃ res1 res2 cacheEnd,
      BlobSource.MultiGetBlob dbW sessW [fileW] [] ReadTier.kReadAllTier true
        ([groupW] ++ fakeGroupW :: []) =
        (res1 ++
          (fakeGroupW.requests.map (fun _ => (Status.ioError, ([] : List Nat)))) ::
          res2, cacheEnd) ∧
      BlobSource.MultiGetBlob dbW sessW [fileW] [] ReadTier.kReadAllTier true
        ([groupW] ++ []) = (res1 ++ res2, cacheEnd) ∧
      List.Forall₂ (fun (g : BlobFileReadRequests) (rs : List (Status × List Nat)) =>
        List.Forall₂ (fun r (rr : Status × List Nat) =>
          rr.1 = Status.ok ∧ some rr.2 = correctValue [fileW] g.fileNumber r.offset)
          g.requests rs) ([groupW] ++ []) (res1 ++ res2)) := by
  have hcoh : CacheCoherent [fileW] [] := by
    intro k v h
    simp [cacheLookup] at h
  have hfake : FindFile [fileW] fakeGroupW.fileNumber = none := rfl
  have hgood : ∀ g ∈ [groupW] ++ ([] : List BlobFileReadRequests), GroupOk [fileW] g := by
    intro g hg
    simp at hg
    subst hg
    intro r hr
    simp [groupW] at hr
    subst hr
    exact ⟨rfl, fileW, rfl, ⟨[1, 2, 3], [4, 5, 6], 65⟩, rfl, rfl, rfl⟩
  exact ⟨hcoh, hfake, hgood,
    C9_multiget_batched_independence dbW sessW [fileW] [] true [groupW] []
      fakeGroupW hcoh hfake hgood⟩

end RocksDB
